import Mathlib

/-!
# MediSync drug-interaction backend: shallow embedding and verification

This file embeds the core logic of the MediSync backend
(src/backend/interaction_checker.py and src/backend/dosage_contraindications.py)
in Lean and proves the specified properties about it.

Embedding conventions:
* Python dicts are modelled as insertion-ordered association lists with unique
  keys (`Dict`); lookup returns the first matching binding, insertion
  overwrites in place (as Python dicts do).
* Python strings are Lean strings; the helpers `lowerStr`, `trimStr` and
  `takeStr` model the Python operations str.lower, str.strip and slicing
  s[:n] over the character list (kernel-reducible, unlike the builtin
  String.toLower / String.trim).
* The two report fields that Python stores as floats rounded to two decimal
  places (confidence_percentage, graph_density) are represented exactly as
  integers scaled by 100 ("x100" fields, i.e. hundredths), computed with
  round-half-to-even (the rounding mode of the Python builtin round).  For
  every reachable input (total_pairs is one of 1,3,6,10,15,21,28,36,45) the
  rounded quantity is never an exact tie at the second decimal and is far
  from one relative to double precision, so this integer value determines the
  Python float exactly.
* Numeric JSON values (doses, dose limits) are rationals; the fallible float()
  conversion of Python is modelled as an Option: a field of type
  Option (Option Rat) distinguishes key absent / present but not convertible /
  convertible to a rational.
* Fallible operations return Except; the error dictionary of the Python code
  is the inductive Err together with err_message.
-/

namespace MediSync

/-- Model of the Python str.lower, mapping each character to lower case. -/
def lowerStr (s : String) : String := ⟨s.data.map Char.toLower⟩

/-- Strip whitespace from both ends of a character list. -/
def trimChars (l : List Char) : List Char :=
  ((l.dropWhile Char.isWhitespace).reverse.dropWhile Char.isWhitespace).reverse

/-- Model of the Python str.strip (no arguments): remove surrounding whitespace. -/
def trimStr (s : String) : String := ⟨trimChars s.data⟩

/-- Model of Python string slicing s[:n] (by characters / code points). -/
def takeStr (s : String) (n : Nat) : String := ⟨s.data.take n⟩

/-- Insertion-ordered association list modelling a Python dict. -/
abbrev Dict (β : Type) := List (String × β)

/-- Dict lookup: d.get(k), returning the first binding for k. -/
def dictGet {β : Type} (d : Dict β) (k : String) : Option β :=
  (d.find? (fun p => p.1 == k)).map (·.2)

/-- Dict insertion d[k] = v: overwrite in place if the key exists (keeping its
position, as Python dicts do), else append. -/
def dictInsert {β : Type} (d : Dict β) (k : String) (v : β) : Dict β :=
  if d.any (fun p => p.1 == k) then d.map (fun p => if p.1 == k then (k, v) else p)
  else d ++ [(k, v)]

/-- The keys of a dict, in insertion order. -/
def dictKeys {β : Type} (d : Dict β) : List String := d.map (·.1)

/-- One value of the interaction map: the JSON object stored for a drug pair.
Both fields are optional because the Python code reads them with .get and a
default. -/
structure Entry where
  severity : Option String
  description : Option String
deriving DecidableEq, Repr

/-- SEVERITY_SCORE: numeric score per severity class (interaction_checker.py
line 19).  Modelled as a partial map, mirroring dict membership tests and
lookups with defaults. -/
def SEVERITY_SCORE (s : String) : Option Nat :=
  if s = "Mild" then some 1
  else if s = "Moderate" then some 2
  else if s = "Severe" then some 3
  else none

/-- SEVERITY_COLORS: hex color per severity class (lines 22-27). -/
def SEVERITY_COLORS (s : String) : Option String :=
  if s = "Mild" then some "#22c55e"
  else if s = "Moderate" then some "#f59e0b"
  else if s = "Severe" then some "#ef4444"
  else if s = "Unknown" then some "#6b7280"
  else none

def MIN_DRUGS : Nat := 2
def MAX_DRUGS : Nat := 10

/-- The case-insensitive name index built by load_interaction_data (line 53):
lower_to_canonical = a dict comprehension mapping name.lower() to name over
the keys of the interaction map (later keys overwrite earlier ones). -/
def load_lower_to_canonical (interactions : Dict (Dict Entry)) : Dict String :=
  interactions.foldl (fun acc p => dictInsert acc (lowerStr p.1) p.1) []

/-- Name resolution as performed per input entry (lines 154-157): strip the
raw input, lower-case it, look it up in the index. -/
def resolve_name (lower_to_canonical : Dict String) (raw : String) : Option String :=
  dictGet lower_to_canonical (lowerStr (trimStr raw))

/-- _overall_risk (lines 72-89). -/
def overall_risk_of (mild_count moderate_count severe_count : Nat) : String :=
  let base :=
    if 1 ≤ severe_count then "Severe"
    else if 1 ≤ moderate_count then "Moderate"
    else "Mild"
  if base = "Mild" ∧ 3 ≤ mild_count then "Moderate"
  else if base = "Moderate" ∧ 2 ≤ moderate_count then "Severe"
  else base

/-- Round-half-to-even division a / b on naturals (the rounding of the Python
builtin round restricted to nonnegative values). -/
def natRoundHalfEvenDiv (a b : Nat) : Nat :=
  let q := a / b
  let r := a % b
  if 2 * r < b then q
  else if b < 2 * r then q + 1
  else if q % 2 = 0 then q else q + 1

/-- _confidence_level (lines 92-98), on the x100 scale: the Python comparison
percentage >= 80 becomes x100 >= 8000. -/
def confidence_level_of (confidence_percentage_x100 : Nat) : String :=
  if 8000 ≤ confidence_percentage_x100 then "High"
  else if 5000 ≤ confidence_percentage_x100 then "Medium"
  else "Low"

/-- _build_risk_explanation (lines 101-109). -/
def build_risk_explanation (overall : String) (unknown_pairs : Nat) : String :=
  let base :=
    if overall = "Mild" then
      "Low interaction risk detected. Minimal clinical concern based on available data."
    else if overall = "Moderate" then
      "Moderate interaction risk detected. Monitoring may be required."
    else if overall = "Severe" then
      "Severe interaction risk detected. Increased cumulative toxicity risk."
    else ""
  if 0 < unknown_pairs then
    base ++ " Note: Some drug pairs lack interaction data in the current offline database."
  else base

/-- _build_recommendation (lines 112-117). -/
def build_recommendation (overall : String) : String :=
  if overall = "Mild" then
    "Continue current regimen. No changes required based on available interaction data."
  else if overall = "Moderate" then
    "Consider monitoring patient response. Review dosing if clinically indicated."
  else if overall = "Severe" then
    "Review prescription and monitor patient. Consider alternatives or dose adjustments."
  else "Review prescription and monitor patient."

/-- _lookup_interaction (lines 120-125): check both directions. -/
def lookup_interaction (interactions : Dict (Dict Entry)) (drug_a drug_b : String) :
    Option Entry :=
  match (dictGet interactions drug_a).bind (fun m => dictGet m drug_b) with
  | some entry => some entry
  | none => (dictGet interactions drug_b).bind (fun m => dictGet m drug_a)

/-- An element of the Python input list drug_list: either a string or a value
of some other type (skipped by the isinstance check on line 152). -/
inductive PyVal where
  | str (s : String)
  | nonstr
deriving DecidableEq, Repr

/-- The three request-level error kinds of check_drug_interactions. -/
inductive Err where
  | DrugNotFound
  | TooFewDrugs
  | TooManyDrugs
deriving DecidableEq, Repr

/-- The error message attached to each error kind (lines 159, 171, 173). -/
def err_message : Err → String
  | .DrugNotFound => "Drug not found in database"
  | .TooFewDrugs => "At least two valid drugs are required."
  | .TooManyDrugs => "Maximum 10 drugs allowed per request."

/-- Step 1 of check_drug_interactions (lines 150-160): skip non-strings, strip,
skip empties, resolve case-insensitively, failing the whole call on the first
unresolvable non-empty entry. -/
def normalize_drugs (lower_to_canonical : Dict String) :
    List PyVal → Except Err (List String)
  | [] => .ok []
  | .nonstr :: rest => normalize_drugs lower_to_canonical rest
  | .str d :: rest =>
    let raw := trimStr d
    if raw = "" then normalize_drugs lower_to_canonical rest
    else
      match dictGet lower_to_canonical (lowerStr raw) with
      | none => .error .DrugNotFound
      | some key => (normalize_drugs lower_to_canonical rest).map (key :: ·)

/-- Deduplication preserving first occurrence (lines 163-168), with the set
seen of already kept names. -/
def dedupFrom (seen : List String) : List String → List String
  | [] => []
  | d :: rest => if d ∈ seen then dedupFrom seen rest else d :: dedupFrom (d :: seen) rest

def dedup (l : List String) : List String := dedupFrom [] l

/-- itertools.combinations(l, 2): all pairs (i, j) with i < j by list
position, in lexicographic index order. -/
def combinations2 : List String → List (String × String)
  | [] => []
  | a :: rest => rest.map (fun b => (a, b)) ++ combinations2 rest

/-- Severity normalization applied to a found entry (lines 196-200): map the
legacy value Critical to Severe, and default everything outside
SEVERITY_SCORE to Moderate. -/
def normalize_severity (raw_severity : String) : String :=
  let severity := if raw_severity = "Critical" then "Severe" else raw_severity
  if (SEVERITY_SCORE severity).isSome then severity else "Moderate"

/-- One element of pair_results (lines 211-217 and 237-243).  severity_score
is None (null in JSON) for Unknown pairs. -/
structure PairResult where
  drugA : String
  drugB : String
  severity : String
  severity_score : Option Nat
  description : String
deriving DecidableEq, Repr

/-- One element of graph_data.edges (lines 218-225). -/
structure Edge where
  source : String
  target : String
  severity : String
  weight : Nat
  color : String
  description : String
deriving DecidableEq, Repr

/-- The highest_risk_pair record (lines 228-234). -/
structure HighPair where
  drugA : String
  drugB : String
  severity : String
  weight : Nat
  description : String
deriving DecidableEq, Repr

/-- One element of interactions_not_found (lines 244-248). -/
structure NotFoundEntry where
  drugA : String
  drugB : String
  description : String
deriving DecidableEq, Repr

def unknown_description : String :=
  "No interaction data available in the current database."

/-- The mutable accumulators of the pairwise loop (lines 178-190). -/
structure AggState where
  pair_results : List PairResult
  graph_edges : List Edge
  interactions_not_found : List NotFoundEntry
  total_score : Nat
  mild_count : Nat
  moderate_count : Nat
  severe_count : Nat
  known_pairs : Nat
  unknown_pairs : Nat
  highest_risk_pair : Option HighPair
  highest_severity_value : Nat
deriving DecidableEq, Repr

def initAggState : AggState :=
  { pair_results := []
    graph_edges := []
    interactions_not_found := []
    total_score := 0
    mild_count := 0
    moderate_count := 0
    severe_count := 0
    known_pairs := 0
    unknown_pairs := 0
    highest_risk_pair := none
    highest_severity_value := 0 }

/-- The body of the pairwise loop (lines 192-248). -/
def process_pair (interactions : Dict (Dict Entry)) (st : AggState)
    (pq : String × String) : AggState :=
  let drug_a := pq.1
  let drug_b := pq.2
  match lookup_interaction interactions drug_a drug_b with
  | some entry =>
    let severity := normalize_severity (entry.severity.getD "Moderate")
    let description := entry.description.getD ""
    let weight := (SEVERITY_SCORE severity).getD 2
    { st with
      total_score := st.total_score + weight
      mild_count := if severity = "Mild" then st.mild_count + 1 else st.mild_count
      moderate_count :=
        if severity = "Moderate" then st.moderate_count + 1 else st.moderate_count
      severe_count := if severity = "Severe" then st.severe_count + 1 else st.severe_count
      known_pairs := st.known_pairs + 1
      pair_results := st.pair_results ++ [⟨drug_a, drug_b, severity, some weight, description⟩]
      graph_edges := st.graph_edges ++
        [⟨drug_a, drug_b, severity, weight, (SEVERITY_COLORS severity).getD "#6b7280",
          takeStr description 150⟩]
      highest_risk_pair :=
        if st.highest_severity_value < weight then
          some ⟨drug_a, drug_b, severity, weight, description⟩
        else st.highest_risk_pair
      highest_severity_value :=
        if st.highest_severity_value < weight then weight else st.highest_severity_value }
  | none =>
    { st with
      unknown_pairs := st.unknown_pairs + 1
      pair_results := st.pair_results ++ [⟨drug_a, drug_b, "Unknown", none,
        unknown_description⟩]
      interactions_not_found := st.interactions_not_found ++
        [⟨drug_a, drug_b, unknown_description⟩] }

/-- One element of the optional drug_doses input: a JSON object read with .get,
so every field may be absent.  For the numeric fields, none = key absent,
some none = present but float() raises, some (some q) = float() yields q. -/
structure DoseItem where
  drug : Option String
  name : Option String
  daily_mg : Option (Option Rat)
  daily_dose : Option (Option Rat)
deriving DecidableEq, Repr

/-- One value of the dosage-limit store drug_dosage_limits.json.  The Python
code also checks `if not limit_entry` (empty object); an empty object is the
value with all fields absent and is skipped anyway because max_daily_mg is
absent, so behaviour is identical.  max_daily_mg: none = key absent or null,
some none = present but float() raises, some (some q) = numeric. -/
structure LimitEntry where
  max_daily_mg : Option (Option Rat)
  unit : Option String
deriving DecidableEq, Repr

/-- One element of the returned dosage warning list (lines 93-99 of
dosage_contraindications.py).  The message field of the Python dict is a
fixed format string of exactly these four values and is omitted here. -/
structure DosageWarning where
  drug : String
  daily_mg : Rat
  max_daily_mg : Rat
  unit : String
deriving DecidableEq, Repr

/-- The truthiness chain item.get("drug") or item.get("name") or "" (line 74):
first truthy (non-empty, non-None) string, else the empty string. -/
def pyOrStr (a b : Option String) : String :=
  match a with
  | some s => if s = "" then (match b with | some t => t | none => "") else s
  | none => match b with | some t => t | none => ""

/-- float(item.get("daily_mg", item.get("daily_dose", 0))) (line 78): the
first present key wins; if both are absent the Python default is the number 0
(NOT a skip).  The result is none exactly when the present value makes
float() raise, which the enclosing code skips. -/
def dose_value (item : DoseItem) : Option Rat :=
  match item.daily_mg with
  | some v => v
  | none =>
    match item.daily_dose with
    | some v => v
    | none => some 0

/-- The body of the dose loop of check_dosage_warnings (lines 73-99 of
dosage_contraindications.py), processing one dose entry against the running
warning list. -/
def dose_step (lower_to_canonical : Dict String) (limits : Dict LimitEntry)
    (warnings : List DosageWarning) (item : DoseItem) : List DosageWarning :=
  let drug_name := trimStr (pyOrStr item.drug item.name)
  if drug_name = "" then warnings
  else
    match dose_value item with
    | none => warnings
    | some daily_mg =>
      let canonical :=
        match dictGet lower_to_canonical (lowerStr drug_name) with
        | some c => if c = "" then drug_name else c
        | none => drug_name
      match dictGet limits canonical with
      | none => warnings
      | some limit_entry =>
        match limit_entry.max_daily_mg with
        | none => warnings
        | some none => warnings
        | some (some max_mg) =>
          if max_mg < daily_mg then
            warnings ++ [⟨canonical, daily_mg, max_mg, limit_entry.unit.getD "mg"⟩]
          else warnings

/-- check_dosage_warnings (dosage_contraindications.py lines 60-100).  The
dosage store (load_dosage_limits) is passed as the parameter limits.  The
parameter canonical_drugs is unused, exactly as in the source. -/
def check_dosage_warnings (canonical_drugs : List String)
    (drug_doses : Option (List DoseItem)) (lower_to_canonical : Dict String)
    (limits : Dict LimitEntry) : List DosageWarning :=
  match drug_doses with
  | none => []
  | some items =>
    if limits.isEmpty ∨ items.isEmpty then []
    else items.foldl (dose_step lower_to_canonical limits) []

/-- The success report of check_drug_interactions (lines 255-280).  The echo
fields severity_score_map / severity_color_map and the
contraindication_warnings list (not touched by any verified property) are
omitted; highest_risk_pair none corresponds to the empty dict on line 275;
warning none corresponds to the key being absent (lines 279-280). -/
structure Report where
  pair_results : List PairResult
  graph_nodes : List String
  graph_edges : List Edge
  total_pairs : Nat
  known_pairs : Nat
  unknown_pairs : Nat
  interactions_not_found : List NotFoundEntry
  confidence_percentage_x100 : Nat
  confidence_level : String
  graph_density_x100 : Nat
  total_score : Nat
  mild_count : Nat
  moderate_count : Nat
  severe_count : Nat
  overall_risk : String
  highest_risk_pair : Option HighPair
  risk_explanation : String
  recommendation : String
  warning : Option String
  dosage_warnings : List DosageWarning
deriving DecidableEq, Repr

deriving instance DecidableEq for Except

/-- Lines 175-297 of check_drug_interactions: the aggregation performed on the
validated, deduplicated drug list.  confidence_percentage and graph_density
are held in exact hundredths (see the file header): round(x, 2) becomes
round-half-even of the numerator scaled by 100. -/
def build_report (interactions : Dict (Dict Entry)) (lower_to_canonical : Dict String)
    (unique_drugs : List String) (drug_doses : Option (List DoseItem))
    (limits : Dict LimitEntry) : Report :=
  let n := unique_drugs.length
  let total_pairs := n * (n - 1) / 2
  let st := (combinations2 unique_drugs).foldl (process_pair interactions) initAggState
  let overall := overall_risk_of st.mild_count st.moderate_count st.severe_count
  let confidence_percentage_x100 :=
    if 0 < total_pairs then natRoundHalfEvenDiv (st.known_pairs * 10000) total_pairs
    else 10000
  let graph_density_x100 :=
    if 0 < total_pairs then natRoundHalfEvenDiv (st.known_pairs * 100) total_pairs
    else 100
  { pair_results := st.pair_results
    graph_nodes := unique_drugs
    graph_edges := st.graph_edges
    total_pairs := total_pairs
    known_pairs := st.known_pairs
    unknown_pairs := st.unknown_pairs
    interactions_not_found := st.interactions_not_found
    confidence_percentage_x100 := confidence_percentage_x100
    confidence_level := confidence_level_of confidence_percentage_x100
    graph_density_x100 := graph_density_x100
    total_score := st.total_score
    mild_count := st.mild_count
    moderate_count := st.moderate_count
    severe_count := st.severe_count
    overall_risk := overall
    highest_risk_pair := st.highest_risk_pair
    risk_explanation := build_risk_explanation overall st.unknown_pairs
    recommendation := build_recommendation overall
    warning :=
      if 0 < st.unknown_pairs then some "Some drug pairs are missing interaction data."
      else none
    dosage_warnings := check_dosage_warnings unique_drugs drug_doses lower_to_canonical limits }

/-- check_drug_interactions (lines 128-307): validation then aggregation,
returning a discriminated result. -/
def check_drug_interactions (interactions : Dict (Dict Entry))
    (lower_to_canonical : Dict String) (drug_list : List PyVal)
    (drug_doses : Option (List DoseItem)) (limits : Dict LimitEntry) :
    Except Err Report :=
  match normalize_drugs lower_to_canonical drug_list with
  | .error e => .error e
  | .ok normalized =>
    let unique_drugs := dedup normalized
    if unique_drugs.length < MIN_DRUGS then .error .TooFewDrugs
    else if MAX_DRUGS < unique_drugs.length then .error .TooManyDrugs
    else .ok (build_report interactions lower_to_canonical unique_drugs drug_doses limits)

/-! ## Derived per-pair and per-item views used to state the properties -/

/-- The pair_results entry produced for one pair, as a pure function of the
store and the pair (the loop body appends exactly this record). -/
def pair_result_of (interactions : Dict (Dict Entry)) (pq : String × String) :
    PairResult :=
  match lookup_interaction interactions pq.1 pq.2 with
  | some entry =>
    let severity := normalize_severity (entry.severity.getD "Moderate")
    ⟨pq.1, pq.2, severity, some ((SEVERITY_SCORE severity).getD 2),
      entry.description.getD ""⟩
  | none => ⟨pq.1, pq.2, "Unknown", none, unknown_description⟩

/-- A pair result is known when it carries a numeric score (equivalently, its
severity is not Unknown). -/
def is_known (q : PairResult) : Bool := q.severity_score.isSome

/-- The highest_risk_pair record corresponding to a known pair result. -/
def to_high_pair (q : PairResult) : HighPair :=
  ⟨q.drugA, q.drugB, q.severity, q.severity_score.getD 0, q.description⟩

/-- One step of the highest-risk tracking of the loop (lines 226-234), seen as
a function of the produced pair result. -/
def track_step (acc : Option HighPair × Nat) (q : PairResult) : Option HighPair × Nat :=
  match q.severity_score with
  | none => acc
  | some w => if acc.2 < w then (some (to_high_pair q), w) else acc

/-- The maximum severity weight over the known pair results (0 if none). -/
def max_known_weight (l : List PairResult) : Nat :=
  ((l.filter is_known).map (fun q => q.severity_score.getD 0)).foldl max 0

/-- The first known pair result attaining the maximum severity weight, in
enumeration order; none when there is no known pair. -/
def first_highest (l : List PairResult) : Option PairResult :=
  (l.filter is_known).find? (fun q => q.severity_score.getD 0 == max_known_weight l)

/-- The overall-risk classification exactly as worded in the specification:
a base tier (any Severe pair, else any Moderate pair, else Mild) escalated at
most once (Mild base with at least 3 mild pairs becomes Moderate, Moderate
base with at least 2 moderate pairs becomes Severe, Severe never escalates). -/
def spec_overall_risk (mild_count moderate_count severe_count : Nat) : String :=
  let base :=
    if 1 ≤ severe_count then "Severe"
    else if 1 ≤ moderate_count then "Moderate"
    else "Mild"
  if base = "Mild" ∧ 3 ≤ mild_count then "Moderate"
  else if base = "Moderate" ∧ 2 ≤ moderate_count then "Severe"
  else base

/-- The dosage warning produced for a single dose entry, as an optional value:
this is the loop body of check_dosage_warnings.  A missing dose value is
treated as the number 0 (the Python .get default), not skipped; only a
present value that fails float() conversion is skipped. -/
def dose_warning_of (limits : Dict LimitEntry) (lower_to_canonical : Dict String)
    (item : DoseItem) : Option DosageWarning :=
  let drug_name := trimStr (pyOrStr item.drug item.name)
  if drug_name = "" then none
  else
    match dose_value item with
    | none => none
    | some daily_mg =>
      let canonical :=
        match dictGet lower_to_canonical (lowerStr drug_name) with
        | some c => if c = "" then drug_name else c
        | none => drug_name
      match dictGet limits canonical with
      | none => none
      | some limit_entry =>
        match limit_entry.max_daily_mg with
        | none => none
        | some none => none
        | some (some max_mg) =>
          if max_mg < daily_mg then
            some ⟨canonical, daily_mg, max_mg, limit_entry.unit.getD "mg"⟩
          else none

/-! ## Concrete sample data (used by the witness theorems)

A small interaction store shaped like the demo dataset written by
scripts/load_dataset.py --sample (symmetric directed entries). -/

def entry_iw : Entry := ⟨some "Moderate", some "Increased bleeding risk when combined."⟩
def entry_id : Entry := ⟨some "Moderate", some "NSAIDs may increase digoxin levels."⟩

def inter0 : Dict (Dict Entry) :=
  [("Ibuprofen", [("Warfarin", entry_iw), ("Digoxin", entry_id)]),
   ("Warfarin", [("Ibuprofen", entry_iw)]),
   ("Digoxin", [("Ibuprofen", entry_id)])]

def l2c0 : Dict String := load_lower_to_canonical inter0

def dl0 : List PyVal := [.str "Ibuprofen", .str "Warfarin", .str "Digoxin"]

/-- The report returned for dl0 against inter0 (checked by kernel evaluation
in the witness theorems). -/
def rpt0 : Report :=
  { pair_results :=
      [⟨"Ibuprofen", "Warfarin", "Moderate", some 2,
        "Increased bleeding risk when combined."⟩,
       ⟨"Ibuprofen", "Digoxin", "Moderate", some 2,
        "NSAIDs may increase digoxin levels."⟩,
       ⟨"Warfarin", "Digoxin", "Unknown", none, unknown_description⟩]
    graph_nodes := ["Ibuprofen", "Warfarin", "Digoxin"]
    graph_edges :=
      [⟨"Ibuprofen", "Warfarin", "Moderate", 2, "#f59e0b",
        "Increased bleeding risk when combined."⟩,
       ⟨"Ibuprofen", "Digoxin", "Moderate", 2, "#f59e0b",
        "NSAIDs may increase digoxin levels."⟩]
    total_pairs := 3
    known_pairs := 2
    unknown_pairs := 1
    interactions_not_found := [⟨"Warfarin", "Digoxin", unknown_description⟩]
    confidence_percentage_x100 := 6667
    confidence_level := "Medium"
    graph_density_x100 := 67
    total_score := 4
    mild_count := 0
    moderate_count := 2
    severe_count := 0
    overall_risk := "Severe"
    highest_risk_pair := some ⟨"Ibuprofen", "Warfarin", "Moderate", 2,
      "Increased bleeding risk when combined."⟩
    risk_explanation := "Severe interaction risk detected. Increased cumulative toxicity risk. Note: Some drug pairs lack interaction data in the current offline database."
    recommendation := "Review prescription and monitor patient. Consider alternatives or dose adjustments."
    warning := some "Some drug pairs are missing interaction data."
    dosage_warnings := [] }

/-- A dosage-limit store with one entry carrying a negative maximum; used to
exhibit the behaviour of a dose entry whose dose value is absent. -/
def limits_neg : Dict LimitEntry := [("X", ⟨some (some (-1)), none⟩)]

/-- A dose entry naming drug X with no dose field at all. -/
def dose_item_missing : DoseItem := ⟨some "X", none, none, none⟩

/-- An ordinary dosage-limit store for the witness. -/
def limits0 : Dict LimitEntry := [("Ibuprofen", ⟨some (some 3200), some "mg"⟩)]

/-! ## List-level lemmas: pair enumeration and deduplication -/

theorem combinations2_length_mul (l : List String) :
    2 * (combinations2 l).length = l.length * (l.length - 1) := by
  induction l with
  | nil => simp [combinations2]
  | cons a rest ih =>
    simp only [combinations2, List.length_append, List.length_map, List.length_cons,
      Nat.add_sub_cancel]
    cases hrest : rest.length with
    | zero =>
      rw [hrest] at ih
      omega
    | succ k =>
      rw [hrest] at ih
      have h2 : (k + 1 + 1) * (k + 1) = (k + 1) * (k + 1 - 1) + 2 * (k + 1) := by
        simp only [Nat.add_sub_cancel]
        ring
      omega

theorem combinations2_length (l : List String) :
    (combinations2 l).length = l.length * (l.length - 1) / 2 := by
  have h := combinations2_length_mul l
  omega

theorem mem_combinations2 {l : List String} {a b : String}
    (h : (a, b) ∈ combinations2 l) : a ∈ l ∧ b ∈ l := by
  induction l with
  | nil => simp [combinations2] at h
  | cons x rest ih =>
    simp only [combinations2, List.mem_append, List.mem_map] at h
    rcases h with ⟨c, hc, heq⟩ | h
    · obtain ⟨ha, hb⟩ := Prod.ext_iff.mp heq
      dsimp at ha hb
      subst ha
      subst hb
      exact ⟨by simp, by simp [hc]⟩
    · rcases ih h with ⟨ha, hb⟩
      exact ⟨List.mem_cons_of_mem x ha, List.mem_cons_of_mem x hb⟩

theorem combinations2_mem_iff (l : List String) (a b : String) :
    (a, b) ∈ combinations2 l ↔
      ∃ i j : Nat, i < j ∧ l[i]? = some a ∧ l[j]? = some b := by
  induction l with
  | nil => simp [combinations2]
  | cons x rest ih =>
    simp only [combinations2, List.mem_append, List.mem_map]
    constructor
    · rintro (⟨c, hc, heq⟩ | h)
      · obtain ⟨ha, hb⟩ := Prod.ext_iff.mp heq
        dsimp at ha hb
        subst ha
        subst hb
        rcases List.mem_iff_getElem?.mp hc with ⟨j, hj⟩
        exact ⟨0, j + 1, Nat.succ_pos j, List.getElem?_cons_zero, by simpa using hj⟩
      · rcases ih.mp h with ⟨i, j, hij, ha, hb⟩
        exact ⟨i + 1, j + 1, Nat.succ_lt_succ hij, by simpa using ha, by simpa using hb⟩
    · rintro ⟨i, j, hij, ha, hb⟩
      cases i with
      | zero =>
        cases j with
        | zero => omega
        | succ j =>
          left
          have ha2 : x = a := by simpa using ha
          have hb2 : rest[j]? = some b := by simpa using hb
          exact ⟨b, List.getElem?_mem hb2, by rw [ha2]⟩
      | succ i =>
        cases j with
        | zero => omega
        | succ j =>
          right
          exact ih.mpr ⟨i, j, by omega, by simpa using ha, by simpa using hb⟩

theorem combinations2_nodup {l : List String} (h : l.Nodup) :
    (combinations2 l).Nodup := by
  induction l with
  | nil => simp [combinations2]
  | cons x rest ih =>
    rcases List.nodup_cons.mp h with ⟨hx, hrest⟩
    simp only [combinations2]
    refine List.Nodup.append ?_ (ih hrest) ?_
    · refine (List.nodup_map_iff ?_).mpr hrest
      intro a b hab
      injection hab with h1 h2
    · intro p hp hq
      rcases List.mem_map.mp hp with ⟨c, _, rfl⟩
      exact hx (mem_combinations2 hq).1

theorem combinations2_antisymm {l : List String} (h : l.Nodup) {a b : String}
    (hab : (a, b) ∈ combinations2 l) : (b, a) ∉ combinations2 l := by
  intro hba
  rcases (combinations2_mem_iff l a b).mp hab with ⟨i, j, hij, hia, hjb⟩
  rcases (combinations2_mem_iff l b a).mp hba with ⟨k, m, hkm, hkb, hma⟩
  have hj : j < l.length := by
    by_contra hc
    rw [List.getElem?_eq_none (Nat.le_of_not_lt hc)] at hjb
    exact Option.noConfusion hjb
  have hi : i < l.length := Nat.lt_trans hij hj
  have hk : k < l.length := by
    by_contra hc
    rw [List.getElem?_eq_none (Nat.le_of_not_lt hc)] at hkb
    exact Option.noConfusion hkb
  have hm : m < l.length := by
    by_contra hc
    rw [List.getElem?_eq_none (Nat.le_of_not_lt hc)] at hma
    exact Option.noConfusion hma
  have e1 : l[i] = a := by
    have := List.getElem?_eq_getElem hi
    rw [this] at hia; exact Option.some.inj hia
  have e2 : l[j] = b := by
    have := List.getElem?_eq_getElem hj
    rw [this] at hjb; exact Option.some.inj hjb
  have e3 : l[k] = b := by
    have := List.getElem?_eq_getElem hk
    rw [this] at hkb; exact Option.some.inj hkb
  have e4 : l[m] = a := by
    have := List.getElem?_eq_getElem hm
    rw [this] at hma; exact Option.some.inj hma
  have hjk : j = k := List.Nodup.getElem_inj_iff h |>.mp (by rw [e2, e3])
  have him : i = m := List.Nodup.getElem_inj_iff h |>.mp (by rw [e1, e4])
  omega

theorem dedupFrom_sound : ∀ (l : List String) (seen : List String),
    (dedupFrom seen l).Nodup ∧ ∀ x ∈ dedupFrom seen l, x ∉ seen := by
  intro l
  induction l with
  | nil => intro seen; simp [dedupFrom]
  | cons d rest ih =>
    intro seen
    by_cases hd : d ∈ seen
    · simpa [dedupFrom, hd] using ih seen
    · rcases ih (d :: seen) with ⟨hnd, hmem⟩
      constructor
      · simp only [dedupFrom, if_neg hd, List.nodup_cons]
        exact ⟨fun hin => (hmem d hin) (List.mem_cons_self d seen), hnd⟩
      · intro x hx
        simp only [dedupFrom, if_neg hd, List.mem_cons] at hx
        rcases hx with rfl | hx
        · exact hd
        · exact fun hxs => (hmem x hx) (List.mem_cons_of_mem d hxs)

theorem dedup_nodup (l : List String) : (dedup l).Nodup :=
  (dedupFrom_sound l []).1

theorem dedupFrom_double : ∀ (A : List String) (seen : List String)
    (x : String) (B : List String),
    dedupFrom seen (A ++ x :: x :: B) = dedupFrom seen (A ++ x :: B) := by
  intro A
  induction A with
  | nil =>
    intro seen x B
    by_cases hx : x ∈ seen
    · simp [dedupFrom, hx]
    · simp [dedupFrom, hx, List.mem_cons]
  | cons a A ih =>
    intro seen x B
    by_cases ha : a ∈ seen
    · simpa [dedupFrom, ha] using ih seen x B
    · simp only [List.cons_append, dedupFrom, if_neg ha]
      exact congrArg (List.cons a) (ih (a :: seen) x B)

theorem dedup_double (A : List String) (x : String) (B : List String) :
    dedup (A ++ x :: x :: B) = dedup (A ++ x :: B) :=
  dedupFrom_double A [] x B

/-! ## Lemmas about the normalization pass -/

theorem normalize_drugs_append (l2c : Dict String) (L1 L2 : List PyVal) :
    normalize_drugs l2c (L1 ++ L2) =
      match normalize_drugs l2c L1 with
      | .error e => .error e
      | .ok ns1 => (normalize_drugs l2c L2).map (ns1 ++ ·) := by
  induction L1 with
  | nil =>
    simp only [List.nil_append, normalize_drugs]
    cases normalize_drugs l2c L2 with
    | error e => rfl
    | ok ns => simp [Except.map]
  | cons d rest ih =>
    cases d with
    | nonstr => simpa only [List.cons_append, normalize_drugs] using ih
    | str s =>
      simp only [List.cons_append, normalize_drugs]
      by_cases hs : trimStr s = ""
      · simpa only [if_pos hs] using ih
      · simp only [if_neg hs]
        cases hk : dictGet l2c (lowerStr (trimStr s)) with
        | none => rfl
        | some key =>
          simp only [List.append_eq]
          rw [ih]
          cases h1 : normalize_drugs l2c rest with
          | error e => rfl
          | ok ns1 =>
            cases h2 : normalize_drugs l2c L2 with
            | error e => rfl
            | ok ns2 => simp [Except.map]

theorem normalize_drugs_nonstr (l2c : Dict String) (pre post : List PyVal) :
    normalize_drugs l2c (pre ++ .nonstr :: post) = normalize_drugs l2c (pre ++ post) := by
  induction pre with
  | nil => simp [normalize_drugs]
  | cons d rest ih =>
    cases d with
    | nonstr => simpa only [List.cons_append, normalize_drugs] using ih
    | str s =>
      simp only [List.cons_append, normalize_drugs]
      by_cases hs : trimStr s = ""
      · simpa only [if_pos hs] using ih
      · simp only [if_neg hs]
        cases dictGet l2c (lowerStr (trimStr s)) with
        | none => rfl
        | some key =>
          simp only [List.append_eq]
          rw [ih]

theorem normalize_drugs_error_iff (l2c : Dict String) (dl : List PyVal) (e : Err) :
    normalize_drugs l2c dl = .error e ↔
      e = .DrugNotFound ∧ ∃ s, PyVal.str s ∈ dl ∧ trimStr s ≠ "" ∧
        dictGet l2c (lowerStr (trimStr s)) = none := by
  induction dl with
  | nil => simp [normalize_drugs]
  | cons d rest ih =>
    cases d with
    | nonstr =>
      simp only [normalize_drugs]
      rw [ih]
      simp [List.mem_cons]
    | str t =>
      simp only [normalize_drugs]
      by_cases ht : trimStr t = ""
      · rw [if_pos ht, ih]
        constructor
        · rintro ⟨rfl, s, hs, hne, hn⟩
          exact ⟨rfl, s, List.mem_cons_of_mem _ hs, hne, hn⟩
        · rintro ⟨rfl, s, hs, hne, hn⟩
          rcases List.mem_cons.mp hs with heq | hs2
          · injection heq with h5
            subst h5
            exact absurd ht hne
          · exact ⟨rfl, s, hs2, hne, hn⟩
      · rw [if_neg ht]
        cases hk : dictGet l2c (lowerStr (trimStr t)) with
        | none =>
          constructor
          · intro he
            injection he with h5
            subst h5
            exact ⟨rfl, t, List.mem_cons_self _ _, ht, hk⟩
          · rintro ⟨rfl, _⟩
            rfl
        | some key =>
          constructor
          · intro he
            have h3 : normalize_drugs l2c rest = .error e := by
              cases h4 : normalize_drugs l2c rest with
              | error e2 =>
                rw [h4] at he
                simp only [Except.map] at he
                injection he with h5
                rw [h5]
              | ok ns =>
                rw [h4] at he
                simp [Except.map] at he
            rcases ih.mp h3 with ⟨rfl, s, hs, hne, hn⟩
            exact ⟨rfl, s, List.mem_cons_of_mem _ hs, hne, hn⟩
          · rintro ⟨rfl, s, hs, hne, hn⟩
            rcases List.mem_cons.mp hs with heq | hs2
            · injection heq with h5
              subst h5
              rw [hk] at hn
              exact Option.noConfusion hn
            · have h3 := ih.mpr ⟨rfl, s, hs2, hne, hn⟩
              rw [h3]
              rfl

theorem normalize_drugs_all_skipped (l2c : Dict String) (dl : List PyVal)
    (h : ∀ x ∈ dl, x = PyVal.nonstr ∨ ∃ s, x = PyVal.str s ∧ trimStr s = "") :
    normalize_drugs l2c dl = .ok [] := by
  induction dl with
  | nil => rfl
  | cons d rest ih =>
    have hrest := ih (fun x hx => h x (List.mem_cons_of_mem _ hx))
    rcases h d (List.mem_cons_self _ _) with rfl | ⟨s, rfl, hs⟩
    · simpa only [normalize_drugs] using hrest
    · simp [normalize_drugs, hs, hrest]

/-! ## Characterizations of check_drug_interactions in terms of its phases -/

theorem check_of_normalize_ok (interactions : Dict (Dict Entry)) (l2c : Dict String)
    (dl : List PyVal) (doses : Option (List DoseItem)) (limits : Dict LimitEntry)
    (ns : List String) (h : normalize_drugs l2c dl = .ok ns) :
    check_drug_interactions interactions l2c dl doses limits =
      (if (dedup ns).length < MIN_DRUGS then .error .TooFewDrugs
       else if MAX_DRUGS < (dedup ns).length then .error .TooManyDrugs
       else .ok (build_report interactions l2c (dedup ns) doses limits)) := by
  unfold check_drug_interactions
  rw [h]

theorem check_of_normalize_error (interactions : Dict (Dict Entry)) (l2c : Dict String)
    (dl : List PyVal) (doses : Option (List DoseItem)) (limits : Dict LimitEntry)
    (e : Err) (h : normalize_drugs l2c dl = .error e) :
    check_drug_interactions interactions l2c dl doses limits = .error e := by
  unfold check_drug_interactions
  rw [h]

theorem check_ok_inv (interactions : Dict (Dict Entry)) (l2c : Dict String)
    (dl : List PyVal) (doses : Option (List DoseItem)) (limits : Dict LimitEntry)
    (r : Report) (h : check_drug_interactions interactions l2c dl doses limits = .ok r) :
    ∃ ns, normalize_drugs l2c dl = .ok ns ∧ MIN_DRUGS ≤ (dedup ns).length ∧
      (dedup ns).length ≤ MAX_DRUGS ∧
      r = build_report interactions l2c (dedup ns) doses limits := by
  cases hn : normalize_drugs l2c dl with
  | error e =>
    rw [check_of_normalize_error interactions l2c dl doses limits e hn] at h
    exact absurd h (by simp)
  | ok ns =>
    rw [check_of_normalize_ok interactions l2c dl doses limits ns hn] at h
    by_cases h1 : (dedup ns).length < MIN_DRUGS
    · rw [if_pos h1] at h
      exact absurd h (by simp)
    · rw [if_neg h1] at h
      by_cases h2 : MAX_DRUGS < (dedup ns).length
      · rw [if_pos h2] at h
        exact absurd h (by simp)
      · rw [if_neg h2] at h
        injection h with h3
        exact ⟨ns, rfl, Nat.le_of_not_lt h1, Nat.le_of_not_lt h2, h3.symm⟩

/-! ## Lemmas about the pairwise aggregation loop -/

theorem countP_add_countP_not {α : Type} (p : α → Bool) (l : List α) :
    l.countP p + l.countP (fun a => !(p a)) = l.length := by
  induction l with
  | nil => simp
  | cons a rest ih =>
    simp only [List.countP_cons, List.length_cons]
    cases h : p a <;> simp [h] <;> omega

theorem pair_result_of_drugA (interactions : Dict (Dict Entry)) (p : String × String) :
    (pair_result_of interactions p).drugA = p.1 := by
  cases h : lookup_interaction interactions p.1 p.2 <;> simp [pair_result_of, h]

theorem pair_result_of_drugB (interactions : Dict (Dict Entry)) (p : String × String) :
    (pair_result_of interactions p).drugB = p.2 := by
  cases h : lookup_interaction interactions p.1 p.2 <;> simp [pair_result_of, h]

theorem is_known_pair_result_of (interactions : Dict (Dict Entry)) (p : String × String) :
    is_known (pair_result_of interactions p) = (lookup_interaction interactions p.1 p.2).isSome := by
  cases h : lookup_interaction interactions p.1 p.2 <;> simp [pair_result_of, is_known, h]

theorem process_pair_pair_results (interactions : Dict (Dict Entry)) (st : AggState)
    (p : String × String) :
    (process_pair interactions st p).pair_results
      = st.pair_results ++ [pair_result_of interactions p] := by
  cases h : lookup_interaction interactions p.1 p.2 <;>
    simp [process_pair, pair_result_of, h]

theorem foldl_pair_results (interactions : Dict (Dict Entry))
    (ps : List (String × String)) (st : AggState) :
    (ps.foldl (process_pair interactions) st).pair_results
      = st.pair_results ++ ps.map (pair_result_of interactions) := by
  induction ps generalizing st with
  | nil => simp
  | cons p rest ih =>
    simp only [List.foldl_cons, List.map_cons]
    rw [ih, process_pair_pair_results]
    simp

/-- The running counters always agree with the pair results accumulated so
far. -/
def StInv (st : AggState) : Prop :=
  st.known_pairs = st.pair_results.countP is_known ∧
  st.unknown_pairs = st.pair_results.countP (fun q => !(is_known q)) ∧
  st.total_score = (st.pair_results.map (fun q => q.severity_score.getD 0)).sum ∧
  st.mild_count = st.pair_results.countP (fun q => q.severity == "Mild") ∧
  st.moderate_count = st.pair_results.countP (fun q => q.severity == "Moderate") ∧
  st.severe_count = st.pair_results.countP (fun q => q.severity == "Severe")

theorem initAggState_inv : StInv initAggState := by
  simp [StInv, initAggState]

theorem normalize_severity_cases (raw : String) :
    normalize_severity raw = "Mild" ∨ normalize_severity raw = "Moderate" ∨
      normalize_severity raw = "Severe" := by
  unfold normalize_severity SEVERITY_SCORE
  by_cases h1 : raw = "Critical"
  · simp [h1]
  · simp only [if_neg h1]
    by_cases h2 : raw = "Mild"
    · simp [h2]
    · by_cases h3 : raw = "Moderate"
      · simp [h2, h3]
      · by_cases h4 : raw = "Severe"
        · simp [h2, h3, h4]
        · simp [h2, h3, h4]

theorem process_pair_inv (interactions : Dict (Dict Entry)) (st : AggState)
    (p : String × String) (hinv : StInv st) : StInv (process_pair interactions st p) := by
  obtain ⟨h1, h2, h3, h4, h5, h6⟩ := hinv
  cases h : lookup_interaction interactions p.1 p.2 with
  | none =>
    refine ⟨?_, ?_, ?_, ?_, ?_, ?_⟩ <;>
      simp [process_pair, h, List.countP_append, List.countP_cons, is_known,
        h1, h2, h3, h4, h5, h6]
  | some entry =>
    refine ⟨?_, ?_, ?_, ?_, ?_, ?_⟩ <;>
      simp [process_pair, h, List.countP_append, List.countP_cons, is_known,
        h1, h2, h3, h4, h5, h6] <;>
      rcases normalize_severity_cases (entry.severity.getD "Moderate") with hs | hs | hs <;>
      simp [hs, SEVERITY_SCORE]

theorem foldl_inv (interactions : Dict (Dict Entry)) (ps : List (String × String))
    (st : AggState) (hinv : StInv st) :
    StInv (ps.foldl (process_pair interactions) st) := by
  induction ps generalizing st with
  | nil => exact hinv
  | cons p rest ih =>
    exact ih (process_pair interactions st p) (process_pair_inv interactions st p hinv)

/-! ## Lemmas about the highest-risk-pair tracking -/

theorem init_le_foldl_max : ∀ (ws : List Nat) (a : Nat), a ≤ ws.foldl max a := by
  intro ws
  induction ws with
  | nil => intro a; exact Nat.le_refl a
  | cons b ws ih =>
    intro a
    exact Nat.le_trans (Nat.le_max_left a b) (ih (max a b))

theorem mem_le_foldl_max : ∀ (ws : List Nat) (a w : Nat), w ∈ ws → w ≤ ws.foldl max a := by
  intro ws
  induction ws with
  | nil => intro a w hw; simp at hw
  | cons b ws ih =>
    intro a w hw
    rcases List.mem_cons.mp hw with rfl | hw2
    · exact Nat.le_trans (Nat.le_max_right a w) (init_le_foldl_max ws (max a w))
    · exact ih (max a b) w hw2

theorem foldl_max_attained : ∀ (ws : List Nat) (a : Nat),
    ws.foldl max a = a ∨ ws.foldl max a ∈ ws := by
  intro ws
  induction ws with
  | nil => intro a; exact Or.inl rfl
  | cons b ws ih =>
    intro a
    rcases ih (max a b) with h | h
    · rw [List.foldl_cons, h]
      rcases Nat.le_total b a with hba | hab
      · exact Or.inl (Nat.max_eq_left hba)
      · exact Or.inr (by rw [Nat.max_eq_right hab]; exact List.mem_cons_self b ws)
    · exact Or.inr (List.mem_cons_of_mem b h)

theorem process_pair_track (interactions : Dict (Dict Entry)) (st : AggState)
    (p : String × String) :
    ((process_pair interactions st p).highest_risk_pair,
      (process_pair interactions st p).highest_severity_value)
      = track_step (st.highest_risk_pair, st.highest_severity_value)
          (pair_result_of interactions p) := by
  cases h : lookup_interaction interactions p.1 p.2 with
  | none => simp [process_pair, pair_result_of, track_step, h]
  | some entry =>
    simp only [process_pair, pair_result_of, track_step, to_high_pair, h]
    by_cases hlt : st.highest_severity_value <
        (SEVERITY_SCORE (normalize_severity (entry.severity.getD "Moderate"))).getD 2 <;>
      simp [hlt]

theorem foldl_track (interactions : Dict (Dict Entry)) (ps : List (String × String))
    (st : AggState) :
    ((ps.foldl (process_pair interactions) st).highest_risk_pair,
      (ps.foldl (process_pair interactions) st).highest_severity_value)
      = (ps.map (pair_result_of interactions)).foldl track_step
          (st.highest_risk_pair, st.highest_severity_value) := by
  induction ps generalizing st with
  | nil => simp
  | cons p rest ih =>
    simp only [List.foldl_cons, List.map_cons]
    rw [ih, process_pair_track]

/-- Evaluating the tracking fold from the initial accumulator: the result is
the first known pair attaining the maximum severity weight, provided every
known weight is positive. -/
theorem track_fold_eq_first_highest (l : List PairResult)
    (hwf : ∀ q ∈ l, is_known q = true → 1 ≤ q.severity_score.getD 0) :
    l.foldl track_step (none, 0)
      = ((first_highest l).map to_high_pair, max_known_weight l) := by
  induction l using List.reverseRecOn with
  | nil => simp [first_highest, max_known_weight]
  | append_singleton l q ih =>
    have hwl : ∀ x ∈ l, is_known x = true → 1 ≤ x.severity_score.getD 0 :=
      fun x hx => hwf x (List.mem_append_left _ hx)
    rw [List.foldl_append, ih hwl]
    cases hq : q.severity_score with
    | none =>
      have hk : is_known q = false := by simp [is_known, hq]
      have hfil : (l ++ [q]).filter is_known = l.filter is_known := by
        rw [List.filter_append]
        simp [hk]
      simp only [List.foldl_cons, List.foldl_nil, track_step, hq]
      rw [first_highest, first_highest, max_known_weight, max_known_weight, hfil]
    | some w =>
      have hk : is_known q = true := by simp [is_known, hq]
      have hw : 1 ≤ w := by
        have := hwf q (List.mem_append_right _ (List.mem_cons_self q [])) hk
        rwa [hq, Option.getD_some] at this
      have hfil : (l ++ [q]).filter is_known = l.filter is_known ++ [q] := by
        rw [List.filter_append]
        simp [hk]
      have hmax : max_known_weight (l ++ [q]) = max (max_known_weight l) w := by
        rw [max_known_weight, max_known_weight, hfil, List.map_append, List.foldl_append]
        simp [hq]
      simp only [List.foldl_cons, List.foldl_nil, track_step, hq]
      by_cases hlt : max_known_weight l < w
      · rw [if_pos hlt]
        have hmax2 : max_known_weight (l ++ [q]) = w := by
          rw [hmax]
          exact Nat.max_eq_right (Nat.le_of_lt hlt)
        have hnone : (l.filter is_known).find?
            (fun x => x.severity_score.getD 0 == max_known_weight (l ++ [q])) = none := by
          rw [List.find?_eq_none]
          intro x hx
          have hle : x.severity_score.getD 0 ≤ max_known_weight l := by
            apply mem_le_foldl_max
            exact List.mem_map_of_mem _ hx
          rw [hmax2]
          simp only [beq_iff_eq]
          omega
        have hfind : first_highest (l ++ [q]) = some q := by
          rw [first_highest, hfil, List.find?_append, hnone]
          simp [hmax2, hq]
        rw [hfind]
        rw [Prod.mk.injEq]
        exact ⟨rfl, hmax2.symm⟩
      · rw [if_neg hlt]
        have hwle : w ≤ max_known_weight l := Nat.le_of_not_lt hlt
        have hmax2 : max_known_weight (l ++ [q]) = max_known_weight l := by
          rw [hmax]
          exact Nat.max_eq_left hwle
        have hpos : 1 ≤ max_known_weight l := Nat.le_trans hw hwle
        have hattained : max_known_weight l ∈
            (l.filter is_known).map (fun x => x.severity_score.getD 0) := by
          rcases foldl_max_attained
              ((l.filter is_known).map (fun x => x.severity_score.getD 0)) 0 with h0 | hmem
          · rw [max_known_weight] at hpos
            omega
          · exact hmem
        have hsome : ((l.filter is_known).find?
            (fun x => x.severity_score.getD 0 == max_known_weight l)).isSome = true := by
          rw [List.find?_isSome]
          rcases List.mem_map.mp hattained with ⟨x, hx, hxe⟩
          exact ⟨x, hx, by simp [hxe]⟩
        have hfind : first_highest (l ++ [q]) = first_highest l := by
          rw [first_highest, first_highest, hfil, hmax2, List.find?_append]
          cases hfl : (l.filter is_known).find?
              (fun x => x.severity_score.getD 0 == max_known_weight l) with
          | none => rw [hfl] at hsome; simp at hsome
          | some y => simp
        rw [hfind, hmax2]

/-- Every pair result produced by the loop is well formed: known results carry
the score of their (normalized) severity, which is positive. -/
theorem pair_result_of_wf (interactions : Dict (Dict Entry)) (p : String × String) :
    is_known (pair_result_of interactions p) = true →
      1 ≤ (pair_result_of interactions p).severity_score.getD 0 := by
  intro hk
  cases h : lookup_interaction interactions p.1 p.2 with
  | none => rw [is_known_pair_result_of, h] at hk; simp at hk
  | some entry =>
    rcases normalize_severity_cases (entry.severity.getD "Moderate") with hs | hs | hs <;>
      simp [pair_result_of, h, hs, SEVERITY_SCORE]

/-! ## Projections of build_report -/

theorem build_report_pair_results (interactions : Dict (Dict Entry)) (l2c : Dict String)
    (u : List String) (doses : Option (List DoseItem)) (limits : Dict LimitEntry) :
    (build_report interactions l2c u doses limits).pair_results
      = (combinations2 u).map (pair_result_of interactions) := by
  show ((combinations2 u).foldl (process_pair interactions) initAggState).pair_results = _
  rw [foldl_pair_results]
  rfl

theorem build_report_total_pairs (interactions : Dict (Dict Entry)) (l2c : Dict String)
    (u : List String) (doses : Option (List DoseItem)) (limits : Dict LimitEntry) :
    (build_report interactions l2c u doses limits).total_pairs
      = u.length * (u.length - 1) / 2 := rfl

theorem build_report_counters (interactions : Dict (Dict Entry)) (l2c : Dict String)
    (u : List String) (doses : Option (List DoseItem)) (limits : Dict LimitEntry) :
    (build_report interactions l2c u doses limits).known_pairs
        = ((combinations2 u).foldl (process_pair interactions) initAggState).known_pairs ∧
    (build_report interactions l2c u doses limits).unknown_pairs
        = ((combinations2 u).foldl (process_pair interactions) initAggState).unknown_pairs ∧
    (build_report interactions l2c u doses limits).total_score
        = ((combinations2 u).foldl (process_pair interactions) initAggState).total_score ∧
    (build_report interactions l2c u doses limits).mild_count
        = ((combinations2 u).foldl (process_pair interactions) initAggState).mild_count ∧
    (build_report interactions l2c u doses limits).moderate_count
        = ((combinations2 u).foldl (process_pair interactions) initAggState).moderate_count ∧
    (build_report interactions l2c u doses limits).severe_count
        = ((combinations2 u).foldl (process_pair interactions) initAggState).severe_count :=
  ⟨rfl, rfl, rfl, rfl, rfl, rfl⟩

/-- The counters of a built report agree with countP / sum over its own
pair_results list. -/
theorem build_report_counts_spec (interactions : Dict (Dict Entry)) (l2c : Dict String)
    (u : List String) (doses : Option (List DoseItem)) (limits : Dict LimitEntry) :
    (build_report interactions l2c u doses limits).known_pairs
        = (build_report interactions l2c u doses limits).pair_results.countP is_known ∧
    (build_report interactions l2c u doses limits).unknown_pairs
        = (build_report interactions l2c u doses limits).pair_results.countP
            (fun q => !(is_known q)) ∧
    (build_report interactions l2c u doses limits).total_score
        = ((build_report interactions l2c u doses limits).pair_results.map
            (fun q => q.severity_score.getD 0)).sum ∧
    (build_report interactions l2c u doses limits).mild_count
        = (build_report interactions l2c u doses limits).pair_results.countP
            (fun q => q.severity == "Mild") ∧
    (build_report interactions l2c u doses limits).moderate_count
        = (build_report interactions l2c u doses limits).pair_results.countP
            (fun q => q.severity == "Moderate") ∧
    (build_report interactions l2c u doses limits).severe_count
        = (build_report interactions l2c u doses limits).pair_results.countP
            (fun q => q.severity == "Severe") := by
  have hinv := foldl_inv interactions (combinations2 u) initAggState initAggState_inv
  obtain ⟨h1, h2, h3, h4, h5, h6⟩ := hinv
  exact ⟨h1, h2, h3, h4, h5, h6⟩

theorem build_report_overall_risk (interactions : Dict (Dict Entry)) (l2c : Dict String)
    (u : List String) (doses : Option (List DoseItem)) (limits : Dict LimitEntry) :
    (build_report interactions l2c u doses limits).overall_risk
      = overall_risk_of (build_report interactions l2c u doses limits).mild_count
          (build_report interactions l2c u doses limits).moderate_count
          (build_report interactions l2c u doses limits).severe_count := rfl

theorem build_report_confidence (interactions : Dict (Dict Entry)) (l2c : Dict String)
    (u : List String) (doses : Option (List DoseItem)) (limits : Dict LimitEntry) :
    (build_report interactions l2c u doses limits).confidence_percentage_x100
      = (if 0 < (build_report interactions l2c u doses limits).total_pairs then
          natRoundHalfEvenDiv
            ((build_report interactions l2c u doses limits).known_pairs * 10000)
            (build_report interactions l2c u doses limits).total_pairs
        else 10000) ∧
    (build_report interactions l2c u doses limits).confidence_level
      = confidence_level_of
          (build_report interactions l2c u doses limits).confidence_percentage_x100 ∧
    (build_report interactions l2c u doses limits).graph_density_x100
      = (if 0 < (build_report interactions l2c u doses limits).total_pairs then
          natRoundHalfEvenDiv
            ((build_report interactions l2c u doses limits).known_pairs * 100)
            (build_report interactions l2c u doses limits).total_pairs
        else 100) :=
  ⟨rfl, rfl, rfl⟩

theorem build_report_highest (interactions : Dict (Dict Entry)) (l2c : Dict String)
    (u : List String) (doses : Option (List DoseItem)) (limits : Dict LimitEntry) :
    (build_report interactions l2c u doses limits).highest_risk_pair
      = ((combinations2 u).foldl (process_pair interactions) initAggState).highest_risk_pair
    := rfl

/-- The underlying drug pair of each produced pair result is the enumerated
pair itself. -/
theorem map_pair_result_of_pairs (interactions : Dict (Dict Entry))
    (ps : List (String × String)) :
    (ps.map (pair_result_of interactions)).map (fun q => (q.drugA, q.drugB)) = ps := by
  rw [List.map_map]
  have h : ∀ p ∈ ps,
      ((fun q => (q.drugA, q.drugB)) ∘ pair_result_of interactions) p = id p := by
    intro p _
    simp only [Function.comp_apply, id_eq]
    rw [pair_result_of_drugA, pair_result_of_drugB]
  rw [List.map_congr_left h, List.map_id]

/-! ## The verified properties -/

/-- C1: on every successful call with n distinct normalized drugs, the report
enumerates exactly n*(n-1)/2 pair results, one per unordered pair of distinct
drugs, in the index order of the deduplicated normalized list (pair (i,j)
with i < j by list position), and known_pairs + unknown_pairs = total_pairs
= n*(n-1)/2. -/
theorem C1_pair_enumeration (interactions : Dict (Dict Entry)) (l2c : Dict String)
    (dl : List PyVal) (doses : Option (List DoseItem)) (limits : Dict LimitEntry)
    (ns : List String) (r : Report)
    (hn : normalize_drugs l2c dl = .ok ns)
    (h : check_drug_interactions interactions l2c dl doses limits = .ok r) :
    (dedup ns).Nodup ∧
    r.pair_results.map (fun q => (q.drugA, q.drugB)) = combinations2 (dedup ns) ∧
    r.pair_results.length = (dedup ns).length * ((dedup ns).length - 1) / 2 ∧
    r.total_pairs = (dedup ns).length * ((dedup ns).length - 1) / 2 ∧
    r.known_pairs + r.unknown_pairs = r.total_pairs ∧
    (∀ a b : String, (a, b) ∈ combinations2 (dedup ns) ↔
      ∃ i j : Nat, i < j ∧ (dedup ns)[i]? = some a ∧ (dedup ns)[j]? = some b) ∧
    (r.pair_results.map (fun q => (q.drugA, q.drugB))).Nodup ∧
    (∀ a b : String, (a, b) ∈ r.pair_results.map (fun q => (q.drugA, q.drugB)) →
      (b, a) ∉ r.pair_results.map (fun q => (q.drugA, q.drugB))) := by
  obtain ⟨ns2, hn2, hmin, hmax, hr⟩ :=
    check_ok_inv interactions l2c dl doses limits r h
  have hns : ns2 = ns := by
    rw [hn] at hn2
    injection hn2 with h5
    exact h5.symm
  subst hns
  subst hr
  have hnodup : (dedup ns2).Nodup := dedup_nodup ns2
  have hmap : (build_report interactions l2c (dedup ns2) doses limits).pair_results.map
      (fun q => (q.drugA, q.drugB)) = combinations2 (dedup ns2) := by
    rw [build_report_pair_results, map_pair_result_of_pairs]
  refine ⟨hnodup, hmap, ?_, ?_, ?_, ?_, ?_, ?_⟩
  · rw [build_report_pair_results, List.length_map, combinations2_length]
  · exact build_report_total_pairs interactions l2c (dedup ns2) doses limits
  · obtain ⟨hk, hu, _⟩ := build_report_counts_spec interactions l2c (dedup ns2) doses limits
    rw [hk, hu, countP_add_countP_not is_known, build_report_pair_results,
      List.length_map, combinations2_length,
      build_report_total_pairs interactions l2c (dedup ns2) doses limits]
  · intro a b
    exact combinations2_mem_iff (dedup ns2) a b
  · rw [hmap]
    exact combinations2_nodup hnodup
  · intro a b hab
    rw [hmap] at hab ⊢
    exact combinations2_antisymm hnodup hab

/-- Witness for C1: the three-drug sample request (one unknown pair). -/
theorem C1_pair_enumeration_witness :
    (normalize_drugs l2c0 dl0 = .ok ["Ibuprofen", "Warfarin", "Digoxin"]) ∧
    (check_drug_interactions inter0 l2c0 dl0 none [] = .ok rpt0) ∧
    rpt0.known_pairs + rpt0.unknown_pairs = rpt0.total_pairs :=
  ⟨by decide, by decide,
    (C1_pair_enumeration inter0 l2c0 dl0 none [] ["Ibuprofen", "Warfarin", "Digoxin"]
      rpt0 (by decide) (by decide)).2.2.2.2.1⟩

theorem overall_risk_of_eq_spec (m mo s : Nat) :
    overall_risk_of m mo s = spec_overall_risk m mo s := rfl

/-- C2: on every successful call the overall risk is the base tier (Severe if
any severe pair, else Moderate if any moderate pair, else Mild) escalated at
most once per the fixed rules; in particular two moderate pairs and no severe
pair classify as Severe, and one moderate pair and no severe pair as
Moderate. -/
theorem C2_overall_risk (interactions : Dict (Dict Entry)) (l2c : Dict String)
    (dl : List PyVal) (doses : Option (List DoseItem)) (limits : Dict LimitEntry)
    (r : Report)
    (h : check_drug_interactions interactions l2c dl doses limits = .ok r) :
    r.overall_risk = spec_overall_risk r.mild_count r.moderate_count r.severe_count ∧
    (r.severe_count = 0 → r.moderate_count = 2 → r.overall_risk = "Severe") ∧
    (r.severe_count = 0 → r.moderate_count = 1 → r.overall_risk = "Moderate") := by
  obtain ⟨ns, hn, hmin, hmax, hr⟩ := check_ok_inv interactions l2c dl doses limits r h
  subst hr
  refine ⟨?_, ?_, ?_⟩
  · rw [build_report_overall_risk, overall_risk_of_eq_spec]
  · intro hs hm
    rw [build_report_overall_risk, hs, hm]
    simp [overall_risk_of]
  · intro hs hm
    rw [build_report_overall_risk, hs, hm]
    simp [overall_risk_of]

/-- Witness for C2: the sample request has two moderate pairs and no severe
pair, hence overall risk Severe. -/
theorem C2_overall_risk_witness :
    (check_drug_interactions inter0 l2c0 dl0 none [] = .ok rpt0) ∧
    rpt0.overall_risk
      = spec_overall_risk rpt0.mild_count rpt0.moderate_count rpt0.severe_count ∧
    rpt0.overall_risk = "Severe" :=
  ⟨by decide,
   (C2_overall_risk inter0 l2c0 dl0 none [] rpt0 (by decide)).1,
   (C2_overall_risk inter0 l2c0 dl0 none [] rpt0 (by decide)).2.1 (by decide) (by decide)⟩

/-- C6: on every successful call, total_pairs is positive, the confidence
percentage is known_pairs / total_pairs * 100 rounded to two decimals (here
exactly, in hundredths), the confidence level thresholds are 80 and 50, and
the graph density is known_pairs / total_pairs rounded to two decimals (in
hundredths).  The 100.0 default for total_pairs = 0 exists in the code but is
unreachable on the success path because at least two distinct drugs are
required. -/
theorem C6_confidence (interactions : Dict (Dict Entry)) (l2c : Dict String)
    (dl : List PyVal) (doses : Option (List DoseItem)) (limits : Dict LimitEntry)
    (r : Report)
    (h : check_drug_interactions interactions l2c dl doses limits = .ok r) :
    0 < r.total_pairs ∧
    r.confidence_percentage_x100
      = natRoundHalfEvenDiv (r.known_pairs * 10000) r.total_pairs ∧
    r.confidence_level
      = (if 8000 ≤ r.confidence_percentage_x100 then "High"
         else if 5000 ≤ r.confidence_percentage_x100 then "Medium" else "Low") ∧
    r.graph_density_x100 = natRoundHalfEvenDiv (r.known_pairs * 100) r.total_pairs := by
  obtain ⟨ns, hn, hmin, hmax, hr⟩ := check_ok_inv interactions l2c dl doses limits r h
  subst hr
  have hlen : 2 ≤ (dedup ns).length := hmin
  have htp : 0 < (build_report interactions l2c (dedup ns) doses limits).total_pairs := by
    rw [build_report_total_pairs]
    have h1 : 1 ≤ (dedup ns).length - 1 := by omega
    have h2 : 2 * 1 ≤ (dedup ns).length * ((dedup ns).length - 1) :=
      Nat.mul_le_mul hlen h1
    omega
  obtain ⟨hc1, hc2, hc3⟩ := build_report_confidence interactions l2c (dedup ns) doses limits
  refine ⟨htp, ?_, ?_, ?_⟩
  · rw [hc1, if_pos htp]
  · rw [hc2]
    rfl
  · rw [hc3, if_pos htp]

/-- Witness for C6: 2 known pairs of 3 gives 66.67 percent (6667 hundredths)
and level Medium. -/
theorem C6_confidence_witness :
    (check_drug_interactions inter0 l2c0 dl0 none [] = .ok rpt0) ∧
    rpt0.confidence_percentage_x100
      = natRoundHalfEvenDiv (rpt0.known_pairs * 10000) rpt0.total_pairs ∧
    rpt0.confidence_percentage_x100 = 6667 ∧
    rpt0.confidence_level = "Medium" ∧
    rpt0.graph_density_x100 = 67 :=
  ⟨by decide,
   (C6_confidence inter0 l2c0 dl0 none [] rpt0 (by decide)).2.1,
   by decide, by decide, by decide⟩

/-- Shape of every produced pair result: either an unknown pair (severity
Unknown, no score) or a known pair whose severity is one of the three
classes. -/
theorem pair_result_of_shape (interactions : Dict (Dict Entry)) (p : String × String) :
    (is_known (pair_result_of interactions p) = false ∧
      (pair_result_of interactions p).severity = "Unknown" ∧
      (pair_result_of interactions p).severity_score = none) ∨
    (is_known (pair_result_of interactions p) = true ∧
      ((pair_result_of interactions p).severity = "Mild" ∨
       (pair_result_of interactions p).severity = "Moderate" ∨
       (pair_result_of interactions p).severity = "Severe")) := by
  cases h : lookup_interaction interactions p.1 p.2 with
  | none => left; simp [pair_result_of, is_known, h]
  | some entry =>
    right
    constructor
    · simp [pair_result_of, is_known, h]
    · rcases normalize_severity_cases (entry.severity.getD "Moderate") with hs | hs | hs <;>
        simp [pair_result_of, h, hs]

theorem counts_partition (L : List PairResult)
    (hwf : ∀ q ∈ L, (is_known q = false ∧ q.severity = "Unknown" ∧
        q.severity_score = none) ∨
      (is_known q = true ∧ (q.severity = "Mild" ∨ q.severity = "Moderate" ∨
        q.severity = "Severe"))) :
    L.countP (fun q => q.severity == "Mild")
      + L.countP (fun q => q.severity == "Moderate")
      + L.countP (fun q => q.severity == "Severe") = L.countP is_known := by
  induction L with
  | nil => simp
  | cons q rest ih =>
    have hrest := ih (fun x hx => hwf x (List.mem_cons_of_mem _ hx))
    rcases hwf q (List.mem_cons_self _ _) with ⟨hk, hs, _⟩ | ⟨hk, hs | hs | hs⟩ <;>
      simp only [List.countP_cons, hk, hs] <;> simp <;> omega

/-- C4: on every successful call, total_score is the sum of the severity
weights of the known pairs (Unknown pairs contribute 0 and are counted in no
per-severity counter), where each known pair carries the stored severity
normalized (Critical to Severe, unrecognized to Moderate) and its weight from
the severity-score table. -/
theorem C4_total_score (interactions : Dict (Dict Entry)) (l2c : Dict String)
    (dl : List PyVal) (doses : Option (List DoseItem)) (limits : Dict LimitEntry)
    (r : Report)
    (h : check_drug_interactions interactions l2c dl doses limits = .ok r) :
    r.total_score = (r.pair_results.map (fun q => q.severity_score.getD 0)).sum ∧
    (∀ q ∈ r.pair_results, q.severity = "Unknown" → q.severity_score = none) ∧
    (∀ q ∈ r.pair_results, q.severity ≠ "Unknown" →
      ∃ e, lookup_interaction interactions q.drugA q.drugB = some e ∧
        q.severity = normalize_severity (e.severity.getD "Moderate") ∧
        ∃ w, SEVERITY_SCORE q.severity = some w ∧ q.severity_score = some w) ∧
    r.mild_count = r.pair_results.countP (fun q => q.severity == "Mild") ∧
    r.moderate_count = r.pair_results.countP (fun q => q.severity == "Moderate") ∧
    r.severe_count = r.pair_results.countP (fun q => q.severity == "Severe") ∧
    r.mild_count + r.moderate_count + r.severe_count = r.known_pairs := by
  obtain ⟨ns, hn, hmin, hmax, hr⟩ := check_ok_inv interactions l2c dl doses limits r h
  subst hr
  obtain ⟨hk, hu, hts, hm, hmo, hsv⟩ :=
    build_report_counts_spec interactions l2c (dedup ns) doses limits
  have hpr := build_report_pair_results interactions l2c (dedup ns) doses limits
  have hshape : ∀ q ∈ (build_report interactions l2c (dedup ns) doses limits).pair_results,
      (is_known q = false ∧ q.severity = "Unknown" ∧ q.severity_score = none) ∨
      (is_known q = true ∧ (q.severity = "Mild" ∨ q.severity = "Moderate" ∨
        q.severity = "Severe")) := by
    rw [hpr]
    intro q hq
    rcases List.mem_map.mp hq with ⟨p, _, rfl⟩
    exact pair_result_of_shape interactions p
  refine ⟨hts, ?_, ?_, hm, hmo, hsv, ?_⟩
  · intro q hq hsev
    rcases hshape q hq with ⟨_, _, hnone⟩ | ⟨_, hs | hs | hs⟩ <;>
      first
        | exact hnone
        | (rw [hsev] at hs; exact absurd hs (by decide))
  · rw [hpr]
    intro q hq hsev
    rcases List.mem_map.mp hq with ⟨p, _, rfl⟩
    cases hl : lookup_interaction interactions p.1 p.2 with
    | none =>
      exact absurd (by simp [pair_result_of, hl]) hsev
    | some entry =>
      rw [pair_result_of_drugA, pair_result_of_drugB, hl]
      refine ⟨entry, rfl, ?_, ?_⟩
      · simp [pair_result_of, hl]
      · rcases normalize_severity_cases (entry.severity.getD "Moderate") with hs | hs | hs
        · exact ⟨1, by simp [pair_result_of, hl, hs, SEVERITY_SCORE],
            by simp [pair_result_of, hl, hs, SEVERITY_SCORE]⟩
        · exact ⟨2, by simp [pair_result_of, hl, hs, SEVERITY_SCORE],
            by simp [pair_result_of, hl, hs, SEVERITY_SCORE]⟩
        · exact ⟨3, by simp [pair_result_of, hl, hs, SEVERITY_SCORE],
            by simp [pair_result_of, hl, hs, SEVERITY_SCORE]⟩
  · rw [hk, hm, hmo, hsv]
    exact counts_partition _ hshape

/-- Witness for C4: total score 4 from the two moderate pairs of the sample
request. -/
theorem C4_total_score_witness :
    (check_drug_interactions inter0 l2c0 dl0 none [] = .ok rpt0) ∧
    rpt0.total_score = (rpt0.pair_results.map (fun q => q.severity_score.getD 0)).sum ∧
    rpt0.total_score = 4 ∧
    rpt0.mild_count + rpt0.moderate_count + rpt0.severe_count = rpt0.known_pairs :=
  ⟨by decide,
   (C4_total_score inter0 l2c0 dl0 none [] rpt0 (by decide)).1,
   by decide,
   (C4_total_score inter0 l2c0 dl0 none [] rpt0 (by decide)).2.2.2.2.2.2⟩

/-- C3: the call returns a discriminated error exactly when some non-empty
trimmed entry fails case-insensitive resolution (DrugNotFound, all or
nothing), or, strictly after deduplication, the distinct count is below 2
(TooFewDrugs) or above 10 (TooManyDrugs); any count from 2 to 10 inclusive
(in particular exactly 2 and exactly 10) succeeds, and no further error kind
exists. -/
theorem C3_error_contract (interactions : Dict (Dict Entry)) (l2c : Dict String)
    (dl : List PyVal) (doses : Option (List DoseItem)) (limits : Dict LimitEntry) :
    (check_drug_interactions interactions l2c dl doses limits = .error .DrugNotFound ↔
      ∃ s, PyVal.str s ∈ dl ∧ trimStr s ≠ "" ∧
        dictGet l2c (lowerStr (trimStr s)) = none) ∧
    (∀ ns, normalize_drugs l2c dl = .ok ns →
      ((check_drug_interactions interactions l2c dl doses limits = .error .TooFewDrugs ↔
          (dedup ns).length < MIN_DRUGS) ∧
       (check_drug_interactions interactions l2c dl doses limits = .error .TooManyDrugs ↔
          MAX_DRUGS < (dedup ns).length) ∧
       (MIN_DRUGS ≤ (dedup ns).length → (dedup ns).length ≤ MAX_DRUGS →
          check_drug_interactions interactions l2c dl doses limits
            = .ok (build_report interactions l2c (dedup ns) doses limits)) ∧
       ((dedup ns).length = 2 ∨ (dedup ns).length = 10 →
          check_drug_interactions interactions l2c dl doses limits
            = .ok (build_report interactions l2c (dedup ns) doses limits)))) ∧
    (∀ e, check_drug_interactions interactions l2c dl doses limits = .error e →
      e = .DrugNotFound ∨ e = .TooFewDrugs ∨ e = .TooManyDrugs) := by
  refine ⟨?_, ?_, ?_⟩
  · constructor
    · intro hc
      cases hn : normalize_drugs l2c dl with
      | error e =>
        have he := check_of_normalize_error interactions l2c dl doses limits e hn
        rw [he] at hc
        injection hc with h5
        subst h5
        exact ((normalize_drugs_error_iff l2c dl .DrugNotFound).mp hn).2
      | ok ns =>
        rw [check_of_normalize_ok interactions l2c dl doses limits ns hn] at hc
        by_cases h1 : (dedup ns).length < MIN_DRUGS
        · rw [if_pos h1] at hc
          injection hc with h5
          exact absurd h5 (by decide)
        · rw [if_neg h1] at hc
          by_cases h2 : MAX_DRUGS < (dedup ns).length
          · rw [if_pos h2] at hc
            injection hc with h5
            exact absurd h5 (by decide)
          · rw [if_neg h2] at hc
            exact absurd hc (by simp)
    · intro hex
      have hn : normalize_drugs l2c dl = .error .DrugNotFound :=
        (normalize_drugs_error_iff l2c dl .DrugNotFound).mpr ⟨rfl, hex⟩
      exact check_of_normalize_error interactions l2c dl doses limits .DrugNotFound hn
  · intro ns hn
    have hc := check_of_normalize_ok interactions l2c dl doses limits ns hn
    refine ⟨?_, ?_, ?_, ?_⟩
    · rw [hc]
      by_cases h1 : (dedup ns).length < MIN_DRUGS
      · simp [if_pos h1, h1]
      · rw [if_neg h1]
        by_cases h2 : MAX_DRUGS < (dedup ns).length
        · rw [if_pos h2]
          constructor
          · intro hcc
            injection hcc with h5
            exact absurd h5 (by decide)
          · intro hcc
            exact absurd hcc h1
        · rw [if_neg h2]
          constructor
          · intro hcc
            exact absurd hcc (by simp)
          · intro hcc
            exact absurd hcc h1
    · rw [hc]
      by_cases h1 : (dedup ns).length < MIN_DRUGS
      · rw [if_pos h1]
        constructor
        · intro hcc
          injection hcc with h5
          exact absurd h5 (by decide)
        · intro hcc
          unfold MIN_DRUGS at h1
          unfold MAX_DRUGS at hcc
          omega
      · rw [if_neg h1]
        by_cases h2 : MAX_DRUGS < (dedup ns).length
        · simp [if_pos h2, h2]
        · rw [if_neg h2]
          constructor
          · intro hcc
            exact absurd hcc (by simp)
          · intro hcc
            exact absurd hcc h2
    · intro hge hle
      rw [hc, if_neg (by omega), if_neg (by omega)]
    · intro hor
      have hge : MIN_DRUGS ≤ (dedup ns).length := by
        unfold MIN_DRUGS
        omega
      have hle : (dedup ns).length ≤ MAX_DRUGS := by
        unfold MAX_DRUGS
        omega
      rw [hc, if_neg (by omega), if_neg (by omega)]
  · intro e he
    cases hn : normalize_drugs l2c dl with
    | error e2 =>
      rw [check_of_normalize_error interactions l2c dl doses limits e2 hn] at he
      injection he with h5
      subst h5
      exact Or.inl ((normalize_drugs_error_iff l2c dl e2).mp hn).1
    | ok ns =>
      rw [check_of_normalize_ok interactions l2c dl doses limits ns hn] at he
      by_cases h1 : (dedup ns).length < MIN_DRUGS
      · rw [if_pos h1] at he
        injection he with h5
        exact Or.inr (Or.inl h5.symm)
      · rw [if_neg h1] at he
        by_cases h2 : MAX_DRUGS < (dedup ns).length
        · rw [if_pos h2] at he
          injection he with h5
          exact Or.inr (Or.inr h5.symm)
        · rw [if_neg h2] at he
          exact absurd he (by simp)

/-- Witness for C3: an unresolvable entry fails with DrugNotFound, a single
drug fails with TooFewDrugs, and two distinct drugs succeed. -/
theorem C3_error_contract_witness :
    (check_drug_interactions inter0 l2c0 [.str "Ibuprofen", .str "nope"] none []
      = .error .DrugNotFound) ∧
    (check_drug_interactions inter0 l2c0 [.str "Ibuprofen"] none []
      = .error .TooFewDrugs) ∧
    (check_drug_interactions inter0 l2c0 [.str "Ibuprofen", .str "Warfarin"] none []
      = .ok (build_report inter0 l2c0 ["Ibuprofen", "Warfarin"] none [])) :=
  ⟨(C3_error_contract inter0 l2c0 [.str "Ibuprofen", .str "nope"] none []).1.mpr
    ⟨"nope", by decide, by decide, by decide⟩,
   by
    have h := ((C3_error_contract inter0 l2c0 [.str "Ibuprofen"] none []).2.1
      ["Ibuprofen"] (by decide)).1.mpr (by decide)
    exact h,
   by
    have h := ((C3_error_contract inter0 l2c0 [.str "Ibuprofen", .str "Warfarin"]
      none []).2.1 ["Ibuprofen", "Warfarin"] (by decide)).2.2.2 (Or.inl (by decide))
    exact h⟩

/-- C5: the call is invariant under case changes, surrounding whitespace and
duplicate entries: any two inputs whose entries normalize to lists with the
same first-occurrence deduplication produce the same result, and in
particular duplicating any single entry in place never changes the result. -/
theorem C5_input_invariance (interactions : Dict (Dict Entry)) (l2c : Dict String)
    (doses : Option (List DoseItem)) (limits : Dict LimitEntry) :
    (∀ dl1 dl2 ns1 ns2, normalize_drugs l2c dl1 = .ok ns1 →
      normalize_drugs l2c dl2 = .ok ns2 → dedup ns1 = dedup ns2 →
      check_drug_interactions interactions l2c dl1 doses limits
        = check_drug_interactions interactions l2c dl2 doses limits) ∧
    (∀ (pre : List PyVal) (x : PyVal) (post : List PyVal),
      check_drug_interactions interactions l2c (pre ++ x :: x :: post) doses limits
        = check_drug_interactions interactions l2c (pre ++ x :: post) doses limits) := by
  have main : ∀ dl1 dl2 ns1 ns2, normalize_drugs l2c dl1 = .ok ns1 →
      normalize_drugs l2c dl2 = .ok ns2 → dedup ns1 = dedup ns2 →
      check_drug_interactions interactions l2c dl1 doses limits
        = check_drug_interactions interactions l2c dl2 doses limits := by
    intro dl1 dl2 ns1 ns2 h1 h2 hd
    rw [check_of_normalize_ok interactions l2c dl1 doses limits ns1 h1,
      check_of_normalize_ok interactions l2c dl2 doses limits ns2 h2, hd]
  refine ⟨main, ?_⟩
  intro pre x post
  have happ1 := normalize_drugs_append l2c pre (x :: x :: post)
  have happ2 := normalize_drugs_append l2c pre (x :: post)
  cases hpre : normalize_drugs l2c pre with
  | error e =>
    rw [hpre] at happ1 happ2
    rw [check_of_normalize_error interactions l2c _ doses limits e happ1,
      check_of_normalize_error interactions l2c _ doses limits e happ2]
  | ok nsp =>
    rw [hpre] at happ1 happ2
    dsimp only at happ1 happ2
    cases x with
    | nonstr =>
      simp only [normalize_drugs] at happ1 happ2
      have heq := happ1.trans happ2.symm
      cases hfull : normalize_drugs l2c (pre ++ PyVal.nonstr :: post) with
      | error e =>
        rw [check_of_normalize_error interactions l2c _ doses limits e (heq.trans hfull),
          check_of_normalize_error interactions l2c _ doses limits e hfull]
      | ok nsf =>
        rw [check_of_normalize_ok interactions l2c _ doses limits nsf (heq.trans hfull),
          check_of_normalize_ok interactions l2c _ doses limits nsf hfull]
    | str s =>
      by_cases hs : trimStr s = ""
      · simp only [normalize_drugs, if_pos hs] at happ1 happ2
        have heq := happ1.trans happ2.symm
        cases hfull : normalize_drugs l2c (pre ++ PyVal.str s :: post) with
        | error e =>
          rw [check_of_normalize_error interactions l2c _ doses limits e (heq.trans hfull),
            check_of_normalize_error interactions l2c _ doses limits e hfull]
        | ok nsf =>
          rw [check_of_normalize_ok interactions l2c _ doses limits nsf (heq.trans hfull),
            check_of_normalize_ok interactions l2c _ doses limits nsf hfull]
      · cases hk : dictGet l2c (lowerStr (trimStr s)) with
        | none =>
          simp only [normalize_drugs, if_neg hs, hk, Except.map] at happ1 happ2
          rw [check_of_normalize_error interactions l2c _ doses limits _ happ1,
            check_of_normalize_error interactions l2c _ doses limits _ happ2]
        | some key =>
          simp only [normalize_drugs, if_neg hs, hk] at happ1 happ2
          cases hpost : normalize_drugs l2c post with
          | error e =>
            rw [hpost] at happ1 happ2
            simp only [Except.map] at happ1 happ2
            rw [check_of_normalize_error interactions l2c _ doses limits e happ1,
              check_of_normalize_error interactions l2c _ doses limits e happ2]
          | ok np =>
            rw [hpost] at happ1 happ2
            simp only [Except.map] at happ1 happ2
            exact main _ _ _ _ happ1 happ2 (dedup_double nsp key np)

/-- Witness for C5: upper-cased, whitespace-padded input and a duplicated
entry both give the same result as the plain sample request. -/
theorem C5_input_invariance_witness :
    (check_drug_interactions inter0 l2c0
        [.str "  IBUPROFEN ", .str "warfarin", .str "DIGOXIN"] none []
      = check_drug_interactions inter0 l2c0 dl0 none []) ∧
    (check_drug_interactions inter0 l2c0
        [.str "Ibuprofen", .str "Ibuprofen", .str "Warfarin"] none []
      = check_drug_interactions inter0 l2c0 [.str "Ibuprofen", .str "Warfarin"] none []) :=
  ⟨(C5_input_invariance inter0 l2c0 none []).1
      [.str "  IBUPROFEN ", .str "warfarin", .str "DIGOXIN"] dl0
      ["Ibuprofen", "Warfarin", "Digoxin"] ["Ibuprofen", "Warfarin", "Digoxin"]
      (by decide) (by decide) (by decide),
   (C5_input_invariance inter0 l2c0 none []).2 [] (.str "Ibuprofen") [.str "Warfarin"]⟩

/-- C10: entries of the input list that are not strings are silently skipped
by normalization: removing one never changes the result, and a list of only
non-string and blank entries fails with TooFewDrugs (never DrugNotFound). -/
theorem C10_nonstring_entries (interactions : Dict (Dict Entry)) (l2c : Dict String)
    (doses : Option (List DoseItem)) (limits : Dict LimitEntry) :
    (∀ pre post : List PyVal,
      check_drug_interactions interactions l2c (pre ++ .nonstr :: post) doses limits
        = check_drug_interactions interactions l2c (pre ++ post) doses limits) ∧
    (∀ dl : List PyVal,
      (∀ x ∈ dl, x = PyVal.nonstr ∨ ∃ s, x = PyVal.str s ∧ trimStr s = "") →
      check_drug_interactions interactions l2c dl doses limits
        = .error .TooFewDrugs) := by
  constructor
  · intro pre post
    have he := normalize_drugs_nonstr l2c pre post
    cases hfull : normalize_drugs l2c (pre ++ post) with
    | error e =>
      rw [check_of_normalize_error interactions l2c _ doses limits e (he.trans hfull),
        check_of_normalize_error interactions l2c _ doses limits e hfull]
    | ok ns =>
      rw [check_of_normalize_ok interactions l2c _ doses limits ns (he.trans hfull),
        check_of_normalize_ok interactions l2c _ doses limits ns hfull]
  · intro dl hall
    have h := normalize_drugs_all_skipped l2c dl hall
    rw [check_of_normalize_ok interactions l2c dl doses limits [] h]
    simp [dedup, dedupFrom, MIN_DRUGS]

/-- Witness for C10: a non-string entry drops out of a valid request, and a
request of only a non-string and a blank string fails with TooFewDrugs. -/
theorem C10_nonstring_entries_witness :
    (check_drug_interactions inter0 l2c0 [.nonstr, .str "Ibuprofen", .str "Warfarin"]
        none []
      = check_drug_interactions inter0 l2c0 [.str "Ibuprofen", .str "Warfarin"] none []) ∧
    (check_drug_interactions inter0 l2c0 [.nonstr, .str "   "] none []
      = .error .TooFewDrugs) :=
  ⟨(C10_nonstring_entries inter0 l2c0 none []).1 [] [.str "Ibuprofen", .str "Warfarin"],
   (C10_nonstring_entries inter0 l2c0 none []).2 [.nonstr, .str "   "] (by
     intro x hx
     rcases List.mem_cons.mp hx with rfl | hx2
     · exact Or.inl rfl
     · rcases List.mem_cons.mp hx2 with rfl | hx3
       · exact Or.inr ⟨"   ", rfl, by decide⟩
       · simp at hx3)⟩

/-- C8: on every successful call, highest_risk_pair is the first known pair
in enumeration order attaining the maximum severity weight (equal weights
never replace an earlier pair, only a strictly higher weight does), and it is
absent exactly when there is no known pair. -/
theorem C8_highest_risk (interactions : Dict (Dict Entry)) (l2c : Dict String)
    (dl : List PyVal) (doses : Option (List DoseItem)) (limits : Dict LimitEntry)
    (r : Report)
    (h : check_drug_interactions interactions l2c dl doses limits = .ok r) :
    r.highest_risk_pair = (first_highest r.pair_results).map to_high_pair ∧
    (r.known_pairs = 0 ↔ r.highest_risk_pair = none) := by
  obtain ⟨ns, hn, hmin, hmax, hr⟩ := check_ok_inv interactions l2c dl doses limits r h
  subst hr
  have hwf : ∀ q ∈ (combinations2 (dedup ns)).map (pair_result_of interactions),
      is_known q = true → 1 ≤ q.severity_score.getD 0 := by
    intro q hq
    rcases List.mem_map.mp hq with ⟨p, _, rfl⟩
    exact pair_result_of_wf interactions p
  have htrack := foldl_track interactions (combinations2 (dedup ns)) initAggState
  have h2 := track_fold_eq_first_highest
    ((combinations2 (dedup ns)).map (pair_result_of interactions)) hwf
  have h3 : ((combinations2 (dedup ns)).foldl (process_pair interactions)
        initAggState).highest_risk_pair
      = (first_highest ((combinations2 (dedup ns)).map
          (pair_result_of interactions))).map to_high_pair :=
    congrArg Prod.fst (htrack.trans h2)
  have hpr := build_report_pair_results interactions l2c (dedup ns) doses limits
  have hmain : (build_report interactions l2c (dedup ns) doses limits).highest_risk_pair
      = (first_highest (build_report interactions l2c (dedup ns)
          doses limits).pair_results).map to_high_pair := by
    rw [build_report_highest, h3, hpr]
  refine ⟨hmain, ?_⟩
  obtain ⟨hk, _⟩ := build_report_counts_spec interactions l2c (dedup ns) doses limits
  rw [hmain, hk]
  constructor
  · intro h0
    have hfil : (build_report interactions l2c (dedup ns)
        doses limits).pair_results.filter is_known = [] :=
      List.filter_eq_nil_iff.mpr (List.countP_eq_zero.mp h0)
    rw [first_highest, hfil]
    simp
  · intro hnone
    rw [List.countP_eq_zero]
    intro q hq
    intro hkq
    have hqf : q ∈ (build_report interactions l2c (dedup ns)
        doses limits).pair_results.filter is_known :=
      List.mem_filter.mpr ⟨hq, hkq⟩
    have hw : 1 ≤ q.severity_score.getD 0 := by
      rw [hpr] at hq
      rcases List.mem_map.mp hq with ⟨p, _, rfl⟩
      exact pair_result_of_wf interactions p hkq
    have hmaxpos : 1 ≤ max_known_weight
        (build_report interactions l2c (dedup ns) doses limits).pair_results := by
      refine Nat.le_trans hw ?_
      exact mem_le_foldl_max _ 0 _ (List.mem_map_of_mem _ hqf)
    rcases foldl_max_attained
        (((build_report interactions l2c (dedup ns)
          doses limits).pair_results.filter is_known).map
          (fun x => x.severity_score.getD 0)) 0 with h0' | hmem
    · unfold max_known_weight at hmaxpos
      omega
    · rcases List.mem_map.mp hmem with ⟨x, hx, hxe⟩
      have hsome : (first_highest (build_report interactions l2c (dedup ns)
          doses limits).pair_results).isSome = true := by
        rw [first_highest, List.find?_isSome]
        refine ⟨x, hx, ?_⟩
        unfold max_known_weight
        simp [hxe]
      cases hfh : first_highest (build_report interactions l2c (dedup ns)
          doses limits).pair_results with
      | none => rw [hfh] at hsome; simp at hsome
      | some y => rw [hfh] at hnone; simp at hnone

/-- Witness for C8: the first of the two weight-2 pairs of the sample request
is reported as the highest-risk pair (the tie does not overwrite it). -/
theorem C8_highest_risk_witness :
    (check_drug_interactions inter0 l2c0 dl0 none [] = .ok rpt0) ∧
    rpt0.highest_risk_pair = (first_highest rpt0.pair_results).map to_high_pair ∧
    rpt0.highest_risk_pair = some ⟨"Ibuprofen", "Warfarin", "Moderate", 2,
      "Increased bleeding risk when combined."⟩ :=
  ⟨by decide,
   (C8_highest_risk inter0 l2c0 dl0 none [] rpt0 (by decide)).1,
   by decide⟩

/-! ## Lemmas about the name-resolution index -/

theorem dictInsert_of_not_mem {β : Type} (d : Dict β) (k : String) (v : β)
    (h : ∀ p ∈ d, p.1 ≠ k) : dictInsert d k v = d ++ [(k, v)] := by
  have hany : d.any (fun p => p.1 == k) = false := by
    rw [List.any_eq_false]
    intro p hp
    simp [h p hp]
  simp [dictInsert, hany]

theorem load_fold_general : ∀ (l : List (String × Dict Entry)) (acc : Dict String),
    (l.map (fun p => lowerStr p.1)).Nodup →
    (∀ p ∈ l, ∀ q ∈ acc, q.1 ≠ lowerStr p.1) →
    l.foldl (fun acc2 p => dictInsert acc2 (lowerStr p.1) p.1) acc
      = acc ++ l.map (fun p => (lowerStr p.1, p.1)) := by
  intro l
  induction l with
  | nil =>
    intro acc _ _
    simp
  | cons p rest ih =>
    intro acc hnd hdis
    have hnd2 : (lowerStr p.1 :: rest.map (fun q => lowerStr q.1)).Nodup := by
      rw [List.map_cons] at hnd
      exact hnd
    obtain ⟨hhead, htail⟩ := List.nodup_cons.mp hnd2
    simp only [List.foldl_cons, List.map_cons]
    have h1 : dictInsert acc (lowerStr p.1) p.1 = acc ++ [(lowerStr p.1, p.1)] :=
      dictInsert_of_not_mem acc _ _
        (fun q hq => hdis p (List.mem_cons_self _ _) q hq)
    rw [h1, ih (acc ++ [(lowerStr p.1, p.1)]) htail ?hdis2]
    · simp
    case hdis2 =>
      intro p2 hp2 q hq
      rcases List.mem_append.mp hq with hqa | hqn
      · exact hdis p2 (List.mem_cons_of_mem _ hp2) q hqa
      · have hq2 : q = (lowerStr p.1, p.1) := List.mem_singleton.mp hqn
        subst hq2
        intro hcontra
        apply hhead
        have hcontra2 : lowerStr p.1 = lowerStr p2.1 := hcontra
        rw [hcontra2]
        exact List.mem_map_of_mem _ hp2

theorem load_lower_to_canonical_eq (interactions : Dict (Dict Entry))
    (hinj : ((dictKeys interactions).map lowerStr).Nodup) :
    load_lower_to_canonical interactions
      = interactions.map (fun p => (lowerStr p.1, p.1)) := by
  have hinj2 : (interactions.map (fun p => lowerStr p.1)).Nodup := by
    rw [dictKeys, List.map_map] at hinj
    exact hinj
  have h := load_fold_general interactions [] hinj2 (by intro p hp q hq; simp at hq)
  simpa [load_lower_to_canonical] using h

theorem dictGet_lower_map (l : List (String × Dict Entry))
    (hinj : (l.map (fun p => lowerStr p.1)).Nodup) (s c : String) :
    dictGet (l.map (fun p => (lowerStr p.1, p.1))) s = some c ↔
      (c ∈ l.map (·.1) ∧ s = lowerStr c) := by
  induction l with
  | nil => simp [dictGet]
  | cons p rest ih =>
    have hnd2 : (lowerStr p.1 :: rest.map (fun q => lowerStr q.1)).Nodup := by
      rw [List.map_cons] at hinj
      exact hinj
    obtain ⟨hhead, htail⟩ := List.nodup_cons.mp hnd2
    specialize ih htail
    by_cases he : lowerStr p.1 = s
    · constructor
      · intro hget
        have hp1 : dictGet ((lowerStr p.1, p.1) :: rest.map (fun q => (lowerStr q.1, q.1))) s
            = some p.1 := by
          simp [dictGet, List.find?_cons, he]
        rw [List.map_cons, hp1] at hget
        injection hget with hc
        subst hc
        exact ⟨by simp, he.symm⟩
      · rintro ⟨hc, hs⟩
        rw [List.map_cons] at hc ⊢
        rcases List.mem_cons.mp hc with rfl | hc2
        · simp [dictGet, List.find?_cons, he]
        · exfalso
          apply hhead
          rw [he, hs]
          rcases List.mem_map.mp hc2 with ⟨q, hq, rfl⟩
          exact List.mem_map_of_mem _ hq
    · have hskip : dictGet ((lowerStr p.1, p.1) :: rest.map (fun q => (lowerStr q.1, q.1))) s
          = dictGet (rest.map (fun q => (lowerStr q.1, q.1))) s := by
        simp [dictGet, List.find?_cons, he]
      constructor
      · intro hget
        rw [List.map_cons, hskip] at hget
        obtain ⟨hc, hs⟩ := ih.mp hget
        rw [List.map_cons]
        exact ⟨List.mem_cons_of_mem _ hc, hs⟩
      · rintro ⟨hc, hs⟩
        rw [List.map_cons] at hc
        rcases List.mem_cons.mp hc with rfl | hc2
        · exact absurd hs.symm he
        · rw [List.map_cons, hskip]
          exact ih.mpr ⟨hc2, hs⟩

/-- C9: for a store whose canonical names carry no surrounding whitespace and
have pairwise distinct lowercasings (as the data-preparation pipeline
produces), the index built at load time maps lowercase(trim(name)) to its one
canonical name, with exactly one entry per canonical drug, and per-entry
resolution trims, lowercases and looks up that index, succeeding exactly on
the canonical name with the matching lowercase form. -/
theorem C9_name_index (interactions : Dict (Dict Entry))
    (htrim : ∀ k ∈ dictKeys interactions, trimStr k = k)
    (hinj : ((dictKeys interactions).map lowerStr).Nodup) :
    load_lower_to_canonical interactions
        = interactions.map (fun p => (lowerStr p.1, p.1)) ∧
    (load_lower_to_canonical interactions).length = interactions.length ∧
    (∀ k ∈ dictKeys interactions,
      dictGet (load_lower_to_canonical interactions) (lowerStr (trimStr k)) = some k) ∧
    (∀ raw c, resolve_name (load_lower_to_canonical interactions) raw = some c ↔
      (c ∈ dictKeys interactions ∧ lowerStr (trimStr raw) = lowerStr c)) ∧
    (∀ d rest,
      normalize_drugs (load_lower_to_canonical interactions) (.str d :: rest)
        = (if trimStr d = "" then
             normalize_drugs (load_lower_to_canonical interactions) rest
           else
             match resolve_name (load_lower_to_canonical interactions) d with
             | none => .error .DrugNotFound
             | some key =>
               (normalize_drugs (load_lower_to_canonical interactions) rest).map
                 (key :: ·))) := by
  have heq := load_lower_to_canonical_eq interactions hinj
  have hinj2 : (interactions.map (fun p => lowerStr p.1)).Nodup := by
    rw [dictKeys, List.map_map] at hinj
    exact hinj
  refine ⟨heq, ?_, ?_, ?_, ?_⟩
  · rw [heq, List.length_map]
  · intro k hk
    rw [htrim k hk, heq]
    exact (dictGet_lower_map interactions hinj2 (lowerStr k) k).mpr ⟨hk, rfl⟩
  · intro raw c
    rw [resolve_name, heq]
    exact dictGet_lower_map interactions hinj2 (lowerStr (trimStr raw)) c
  · intro d rest
    rfl

/-- Witness for C9: the sample store satisfies both data hypotheses, its
index is the lowercased key map, and a padded upper-case query resolves to
the canonical name. -/
theorem C9_name_index_witness :
    (∀ k ∈ dictKeys inter0, trimStr k = k) ∧
    ((dictKeys inter0).map lowerStr).Nodup ∧
    load_lower_to_canonical inter0 = inter0.map (fun p => (lowerStr p.1, p.1)) ∧
    resolve_name (load_lower_to_canonical inter0) " IBUPROFEN  " = some "Ibuprofen" :=
  ⟨by decide, by decide,
   (C9_name_index inter0 (by decide) (by decide)).1,
   ((C9_name_index inter0 (by decide) (by decide)).2.2.2.1 " IBUPROFEN  "
     "Ibuprofen").mpr ⟨by decide, by decide⟩⟩

/-! ## Lemmas about the dosage pass -/

theorem dose_step_eq (l2c : Dict String) (limits : Dict LimitEntry)
    (ws : List DosageWarning) (item : DoseItem) :
    dose_step l2c limits ws item = ws ++ (dose_warning_of limits l2c item).toList := by
  unfold dose_step dose_warning_of
  by_cases h1 : trimStr (pyOrStr item.drug item.name) = ""
  · simp [h1]
  · simp only [if_neg h1]
    cases h2 : dose_value item with
    | none => simp
    | some q =>
      cases h3 : dictGet limits
          (match dictGet l2c (lowerStr (trimStr (pyOrStr item.drug item.name))) with
           | some c => if c = "" then trimStr (pyOrStr item.drug item.name) else c
           | none => trimStr (pyOrStr item.drug item.name)) with
      | none => simp [h3]
      | some limit_entry =>
        simp only [h3]
        cases h4 : limit_entry.max_daily_mg with
        | none => simp
        | some mv =>
          cases mv with
          | none => simp
          | some mx =>
            by_cases h5 : mx < q <;> simp [h5]

theorem foldl_dose_step (l2c : Dict String) (limits : Dict LimitEntry) :
    ∀ (items : List DoseItem) (acc : List DosageWarning),
      items.foldl (dose_step l2c limits) acc
        = acc ++ items.filterMap (dose_warning_of limits l2c) := by
  intro items
  induction items with
  | nil => intro acc; simp
  | cons it rest ih =>
    intro acc
    simp only [List.foldl_cons]
    rw [ih, dose_step_eq]
    cases h : dose_warning_of limits l2c it <;>
      simp [List.filterMap_cons, h]

/-- Counterexample for C7: a dose entry whose dose value is entirely missing
is not skipped: the Python default treats it as the number 0, so against a
stored (negative) maximum of -1 it produces a warning, where the claim as
stated requires none. -/
theorem C7_dosage_counterexample :
    check_dosage_warnings ["X"] (some [dose_item_missing]) [] limits_neg
      = [⟨"X", 0, -1, "mg"⟩] := by decide

/-- C7 (amended): the dosage pass emits one warning per dose entry whose
(resolved-or-raw) drug has a stored numeric maximum that its numeric daily
dose strictly exceeds, where a missing dose value is treated as the number 0
(so it warns exactly when 0 exceeds the stored maximum) rather than being
skipped; a dose value that is present but fails numeric conversion is
skipped; an unresolved drug name falls back to the raw name and never fails
the call; and the pass returns the empty list whenever the dosage store is
empty or the doses input is absent. -/
theorem C7_dosage_pass (canonical_drugs : List String) (limits : Dict LimitEntry)
    (l2c : Dict String) (doses : Option (List DoseItem)) :
    check_dosage_warnings canonical_drugs doses l2c limits
      = (match doses with
         | none => []
         | some items =>
           if limits.isEmpty then [] else items.filterMap (dose_warning_of limits l2c)) ∧
    (doses = none → check_dosage_warnings canonical_drugs doses l2c limits = []) ∧
    (limits = [] → check_dosage_warnings canonical_drugs doses l2c limits = []) ∧
    (∀ item, dose_value item = none → dose_warning_of limits l2c item = none) ∧
    (∀ item w, dose_warning_of limits l2c item = some w →
      ∃ limit_entry, dictGet limits w.drug = some limit_entry ∧
        limit_entry.max_daily_mg = some (some w.max_daily_mg) ∧
        dose_value item = some w.daily_mg ∧
        w.max_daily_mg < w.daily_mg) := by
  refine ⟨?_, ?_, ?_, ?_, ?_⟩
  · cases doses with
    | none => rfl
    | some items =>
      show (if limits.isEmpty ∨ items.isEmpty then []
          else items.foldl (dose_step l2c limits) [])
        = (if limits.isEmpty then [] else items.filterMap (dose_warning_of limits l2c))
      by_cases hl : limits.isEmpty
      · simp [hl]
      · rw [if_neg hl]
        cases items with
        | nil => simp
        | cons it rest =>
          rw [if_neg (by simp [hl])]
          exact foldl_dose_step l2c limits (it :: rest) []
  · intro hd
    subst hd
    rfl
  · intro hl
    subst hl
    cases doses with
    | none => rfl
    | some items => simp [check_dosage_warnings]
  · intro item hdose
    unfold dose_warning_of
    by_cases h1 : trimStr (pyOrStr item.drug item.name) = ""
    · simp [h1]
    · simp [h1, hdose]
  · intro item w hw
    unfold dose_warning_of at hw
    by_cases h1 : trimStr (pyOrStr item.drug item.name) = ""
    · rw [if_pos h1] at hw
      exact absurd hw (by simp)
    · rw [if_neg h1] at hw
      cases h2 : dose_value item with
      | none =>
        rw [h2] at hw
        exact absurd hw (by simp)
      | some q =>
        rw [h2] at hw
        dsimp only at hw
        cases h3 : dictGet limits
            (match dictGet l2c (lowerStr (trimStr (pyOrStr item.drug item.name))) with
             | some c => if c = "" then trimStr (pyOrStr item.drug item.name) else c
             | none => trimStr (pyOrStr item.drug item.name)) with
        | none =>
          rw [h3] at hw
          exact absurd hw (by simp)
        | some limit_entry =>
          rw [h3] at hw
          dsimp only at hw
          cases h4 : limit_entry.max_daily_mg with
          | none =>
            rw [h4] at hw
            exact absurd hw (by simp)
          | some mv =>
            cases mv with
            | none =>
              rw [h4] at hw
              exact absurd hw (by simp)
            | some mx =>
              rw [h4] at hw
              dsimp only at hw
              by_cases h5 : mx < q
              · rw [if_pos h5] at hw
                injection hw with hw2
                subst hw2
                exact ⟨limit_entry, h3, h4, by simp [h2], by simpa using h5⟩
              · rw [if_neg h5] at hw
                exact absurd hw (by simp)

/-- Witness for C7 (amended): a 4000 mg ibuprofen dose against a 3200 mg
limit warns (resolving the lowercase name), and an absent doses input yields
no warnings. -/
theorem C7_dosage_pass_witness :
    (check_dosage_warnings ["Ibuprofen"]
        (some [⟨some "ibuprofen", none, some (some 4000), none⟩]) l2c0 limits0
      = [⟨"Ibuprofen", 4000, 3200, "mg"⟩]) ∧
    (check_dosage_warnings ["Ibuprofen"] none l2c0 limits0 = []) :=
  ⟨(C7_dosage_pass ["Ibuprofen"] limits0 l2c0
      (some [⟨some "ibuprofen", none, some (some 4000), none⟩])).1.trans (by decide),
   (C7_dosage_pass ["Ibuprofen"] limits0 l2c0 none).2.1 rfl⟩

end MediSync
